import Mathlib

/-!
# bluerestd: the authorization correlator and the reply intake

A shallow embedding of `endpoints/authorization.go`, of the
`/auth/{auth_id}/{reply}` and `/events` handlers of `endpoints/session.go`,
of the push adapter of `endpoints/types.go`, of the adapter states handler of
`endpoints/adapter.go`, of the start-file-transfer handler of
`endpoints/obex.go`, and of the start of the `launch` command in
`cmd/app/app.go`.

The Go code is concurrent: a call of `sendAndWait` parks in a `select`
while other goroutines (HTTP handlers, other authorization calls) run.
The embedding makes the shared state explicit (`State`) and cuts the
blocking function at its only suspension point: `sendAndWait` runs the
function up to the `select`, `sendAndWaitResume` runs the `select` and
the rest of the function.
-/

namespace Bluerestd

/-! ## Types declared outside the repository -/

/-- The type `bluetooth.MacAddress`; the code only carries it through. -/
structure MacAddress where
  octets : List Nat
deriving DecidableEq, Repr

/-- The type `uuid.UUID`; the code only carries it through. -/
structure UUID where
  bytes : List Nat
deriving DecidableEq, Repr

/-- The type `bluetooth.FileTransferData`; the code only carries it through. -/
structure FileTransferData where
  fields : List (String × String)
deriving DecidableEq, Repr

/-- The type `bluetooth.AuthTimeout`: a handle on a deadline whose `Done()`
channel is closed when the deadline passes. -/
structure AuthTimeout where
  handle : Nat
deriving DecidableEq, Repr

/-! ## Data model of `authorization.go` -/

/-- The struct `authPairingEvent`; omitted fields take Go zero values. -/
structure authPairingEvent where
  ServiceUUID : Option UUID := none
  PairingType : String := ""
  Pincode : String := ""
  Passkey : Nat := 0
  Entered : Nat := 0
  Address : MacAddress
deriving DecidableEq, Repr

/-- The struct `authTransferEvent`. -/
structure authTransferEvent where
  FileProperties : FileTransferData
deriving DecidableEq, Repr

/-- The struct `authRequestEvent`; omitted fields take Go zero values. -/
structure authRequestEvent where
  PairingParams : Option authPairingEvent := none
  TransferParams : Option authTransferEvent := none
  AuthType : String := ""
  ID : Int := 0
  ReplyRequired : Bool := false
deriving DecidableEq, Repr

/-- The struct `authEventReply`; its zero value is `⟨"", false⟩`. -/
structure authEventReply where
  reason : String := ""
  reply : Bool := false
deriving DecidableEq, Repr

/-- The type `authEventID` (a Go `uint`). -/
abbrev authEventID := Nat

/-- The constant `authEvent = authEventID(100)`. -/
def authEvent : authEventID := 100

/-- The method `authEventReply.Error`. -/
def authEventReply.Error (a : authEventReply) : String :=
  if a.reply then ""
  else
    let reason := "The authorization request was not accepted."
    if a.reason ≠ "" then a.reason else reason

/-- The dynamic types behind the Go `error` values this code returns:
`errors.New(msg)` and an `authEventReply` used as an error. -/
inductive GoError where
  | errorString (msg : String)
  | authReply (r : authEventReply)
deriving DecidableEq, Repr

/-- The message of an error value (`err.Error()`). -/
def GoError.Error : GoError → String
  | .errorString msg => msg
  | .authReply r => r.Error

/-- A Go `error`: `none` is `nil`. -/
abbrev error := Option GoError

/-! ## Machine integers and the counter -/

/-- Two's complement wrap of an integer into the `int64` range. -/
def wrapInt64 (x : Int) : Int :=
  (x + 9223372036854775808) % 18446744073709551616 - 9223372036854775808

/-- The `xsync.Counter` held by the authorizer (an `int64` sum). -/
structure Counter where
  value : Int := 0
deriving DecidableEq, Repr

/-- The call `xsync.NewCounter()`. -/
def NewCounter : Counter := {}

/-- The method `Counter.Inc`: add one, as `int64`. -/
def Counter.Inc (c : Counter) : Counter :=
  { value := wrapInt64 (c.value + 1) }

/-- The method `Counter.Value`. -/
def Counter.Value (c : Counter) : Int := c.value

/-- The struct `Authorizer`. -/
structure Authorizer where
  id : Counter
deriving DecidableEq, Repr

/-- The function `NewAuthorizer`. -/
def NewAuthorizer : Authorizer := { id := NewCounter }

/-! ## Channels -/

/-- A Go channel of `authEventReply`: its capacity and the buffered values,
oldest first. -/
structure Chan where
  cap : Nat
  buf : List authEventReply
deriving DecidableEq, Repr

/-- The channel heap: a channel handle is an index into it. -/
abbrev Chans := List Chan

/-- The expression `make(chan authEventReply, cap)`: the new handle and heap. -/
def makeChan (chans : Chans) (cap : Nat) : Nat × Chans :=
  (chans.length, chans ++ [{ cap := cap, buf := [] }])

/-- The statement `ch <- v` with no receiver parked on `ch`: the value is
buffered when there is room; `none` means the sender blocks. -/
def chanSend (chans : Chans) (ch : Nat) (v : authEventReply) : Option Chans :=
  match chans[ch]? with
  | some c =>
    if c.buf.length < c.cap then some (chans.set ch { c with buf := c.buf ++ [v] })
    else none
  | none => none

/-- The expression `<-ch`: the oldest buffered value; `none` means the
receiver is not ready. -/
def chanRecv (chans : Chans) (ch : Nat) : Option (authEventReply × Chans) :=
  match chans[ch]? with
  | some c =>
    match c.buf with
    | v :: rest => some (v, chans.set ch { c with buf := rest })
    | [] => none
  | none => none

/-! ## The `requests` registry (`xsync.MapOf[int64, chan authEventReply]`) -/

/-- The map as an association list from ids to channel handles. -/
abbrev MapOf := List (Int × Nat)

/-- The method `MapOf.Load`. -/
def MapOf.Load : MapOf → Int → Option Nat
  | [], _ => none
  | (k, v) :: rest, key => if k = key then some v else MapOf.Load rest key

/-- The method `MapOf.Delete`. -/
def MapOf.Delete (m : MapOf) (key : Int) : MapOf :=
  m.filter (fun e => decide (e.1 ≠ key))

/-- The method `MapOf.Store`: sets the value for the key, replacing any. -/
def MapOf.Store (m : MapOf) (key : Int) (v : Nat) : MapOf :=
  (key, v) :: MapOf.Delete m key

/-- The method `MapOf.LoadAndDelete`: one atomic step. -/
def MapOf.LoadAndDelete (m : MapOf) (key : Int) : Option Nat × MapOf :=
  (MapOf.Load m key, MapOf.Delete m key)

/-! ## Shared state -/

/-- The process state the two files act on: the authorizer, the global
`requests` map, the channels made so far, the deadlines that have passed,
and the calls of `eventbus.Publish` made so far, oldest first. -/
structure State where
  a : Authorizer
  requests : MapOf
  chans : Chans
  done : List AuthTimeout
  published : List (authEventID × authRequestEvent)
deriving DecidableEq, Repr

/-- The state at start-up: `requests` is empty and the authorizer is new. -/
def State.init : State :=
  { a := NewAuthorizer, requests := [], chans := [], done := [], published := [] }

/-! ## `authorization.go` -/

/-- The method `Authorizer.send`. -/
def send (st : State) (data : authRequestEvent) : State × Int :=
  let st1 := { st with a := { id := st.a.id.Inc } }
  let data1 := { data with ID := st1.a.id.Value }
  let st2 := { st1 with published := st1.published ++ [(authEvent, data1)] }
  (st2, data1.ID)

/-- Where a call of an authorizer method stands: it has returned, or it is
parked in the `select` of `sendAndWait` on its deadline and its channel. -/
inductive Call where
  | returned (err : error)
  | waiting (timeout : AuthTimeout) (ch : Nat)
deriving DecidableEq, Repr

/-- The method `Authorizer.sendAndWait` up to its `select`: make the channel,
call `send`, store the channel under the id `send` returned. -/
def sendAndWait (st : State) (timeout : AuthTimeout) (data : authRequestEvent) :
    State × Call :=
  let (ch, chans1) := makeChan st.chans 1
  let st1 := { st with chans := chans1 }
  let (st2, id) := send st1 data
  let st3 := { st2 with requests := MapOf.Store st2.requests id ch }
  (st3, .waiting timeout ch)

/-- The two cases of the `select` in `sendAndWait`. -/
inductive SelectCase where
  | timeoutDone
  | replyReceived
deriving DecidableEq, Repr

/-- The tail of `sendAndWait`, after the `select`. -/
def sendAndWaitReturn (reply : authEventReply) : error :=
  if reply.reply then none else some (.authReply reply)

/-- The `select` of `sendAndWait` and the rest of the function, when the
`select` takes the case `pick`. `none` means that case is not ready (the
deadline has not passed, or nothing is buffered on the channel). -/
def sendAndWaitResume (st : State) (timeout : AuthTimeout) (ch : Nat)
    (pick : SelectCase) : Option (State × error) :=
  let reply : authEventReply := {}
  match pick with
  | .timeoutDone =>
    if timeout ∈ st.done then some (st, sendAndWaitReturn reply) else none
  | .replyReceived =>
    match chanRecv st.chans ch with
    | some (r, chans1) => some ({ st with chans := chans1 }, sendAndWaitReturn r)
    | none => none

/-- The method `Authorizer.AuthorizeTransfer`. -/
def AuthorizeTransfer (st : State) (timeout : AuthTimeout) (props : FileTransferData) :
    State × Call :=
  sendAndWait st timeout
    { AuthType := "transfer", ReplyRequired := true,
      TransferParams := some { FileProperties := props } }

/-- The method `Authorizer.DisplayPinCode`. -/
def DisplayPinCode (st : State) (_timeout : AuthTimeout) (address : MacAddress)
    (pincode : String) : State × Call :=
  let (st1, _) := send st
    { AuthType := "pairing", ReplyRequired := false,
      PairingParams := some
        { PairingType := "display-pincode", Address := address, Pincode := pincode } }
  (st1, .returned none)

/-- The method `Authorizer.DisplayPasskey`. -/
def DisplayPasskey (st : State) (_timeout : AuthTimeout) (address : MacAddress)
    (passkey : Nat) (entered : Nat) : State × Call :=
  let (st1, _) := send st
    { AuthType := "pairing", ReplyRequired := false,
      PairingParams := some
        { PairingType := "display-passkey", Address := address, Passkey := passkey,
          Entered := entered } }
  (st1, .returned none)

/-- The method `Authorizer.ConfirmPasskey`. -/
def ConfirmPasskey (st : State) (timeout : AuthTimeout) (address : MacAddress)
    (passkey : Nat) : State × Call :=
  sendAndWait st timeout
    { AuthType := "pairing", ReplyRequired := true,
      PairingParams := some
        { PairingType := "confirm-passkey", Address := address, Passkey := passkey } }

/-- The method `Authorizer.AuthorizePairing`. -/
def AuthorizePairing (st : State) (timeout : AuthTimeout) (address : MacAddress) :
    State × Call :=
  sendAndWait st timeout
    { AuthType := "pairing", ReplyRequired := true,
      PairingParams := some { PairingType := "authorize-pairing", Address := address } }

/-- The method `Authorizer.AuthorizeService`. -/
def AuthorizeService (st : State) (timeout : AuthTimeout) (address : MacAddress)
    (uuid : UUID) : State × Call :=
  sendAndWait st timeout
    { AuthType := "pairing", ReplyRequired := true,
      PairingParams := some
        { PairingType := "authorize-service", Address := address,
          ServiceUUID := some uuid } }

/-! ## `session.go`: the reply intake -/

/-- The input struct of the `/auth/{auth_id}/{reply}` handler. -/
structure AuthInput where
  Reply : String
  Reason : String
  ID : Int
deriving DecidableEq, Repr

/-- How a handler invocation ends: it returns its `error`, or it blocks
for ever on a channel send. -/
inductive Handled where
  | returned (err : error)
  | blocked
deriving DecidableEq, Repr

/-- The handler registered by `authEndpoint`. -/
def authEndpoint (st : State) (input : AuthInput) : State × Handled :=
  if input.ID ≤ 0 then (st, .returned (some (.errorString "invalid authorization ID")))
  else
    match MapOf.LoadAndDelete st.requests input.ID with
    | (none, _) => (st, .returned (some (.errorString "authorization ID not found")))
    | (some ch, requests1) =>
      let st1 := { st with requests := requests1 }
      match chanSend st1.chans ch ⟨input.Reason, decide (input.Reply = "yes")⟩ with
      | some chans1 => ({ st1 with chans := chans1 }, .returned none)
      | none => (st1, .blocked)

/-! ## Interleavings -/

/-- A call of one of the six authorizer methods, with its arguments. -/
inductive AuthCall where
  | AuthorizeTransfer (timeout : AuthTimeout) (props : FileTransferData)
  | DisplayPinCode (timeout : AuthTimeout) (address : MacAddress) (pincode : String)
  | DisplayPasskey (timeout : AuthTimeout) (address : MacAddress) (passkey : Nat)
      (entered : Nat)
  | ConfirmPasskey (timeout : AuthTimeout) (address : MacAddress) (passkey : Nat)
  | AuthorizePairing (timeout : AuthTimeout) (address : MacAddress)
  | AuthorizeService (timeout : AuthTimeout) (address : MacAddress) (uuid : UUID)
deriving DecidableEq, Repr

/-- Run the called method until it returns or parks in its `select`. -/
def AuthCall.run (st : State) : AuthCall → State × Call
  | .AuthorizeTransfer timeout props => Bluerestd.AuthorizeTransfer st timeout props
  | .DisplayPinCode timeout address pincode =>
    Bluerestd.DisplayPinCode st timeout address pincode
  | .DisplayPasskey timeout address passkey entered =>
    Bluerestd.DisplayPasskey st timeout address passkey entered
  | .ConfirmPasskey timeout address passkey =>
    Bluerestd.ConfirmPasskey st timeout address passkey
  | .AuthorizePairing timeout address => Bluerestd.AuthorizePairing st timeout address
  | .AuthorizeService timeout address uuid =>
    Bluerestd.AuthorizeService st timeout address uuid

/-- The four methods that go through `sendAndWait`. -/
def AuthCall.waits : AuthCall → Bool
  | .DisplayPinCode _ _ _ => false
  | .DisplayPasskey _ _ _ _ => false
  | _ => true

/-- One scheduling step of the process: an authorizer method runs up to its
return or its `select` (calls do not overlap inside `send`); a parked
`sendAndWait` is resumed through one case of its `select`; the reply
handler runs; a deadline passes. -/
inductive Op where
  | call (c : AuthCall)
  | resume (timeout : AuthTimeout) (ch : Nat) (pick : SelectCase)
  | reply (input : AuthInput)
  | deadline (timeout : AuthTimeout)
deriving DecidableEq, Repr

/-- The state after one step; resuming through a case that is not ready
leaves the call parked and the state as it was. -/
def step (st : State) : Op → State
  | .call c => (c.run st).1
  | .resume timeout ch pick =>
    match sendAndWaitResume st timeout ch pick with
    | some (st1, _) => st1
    | none => st
  | .reply input => (authEndpoint st input).1
  | .deadline timeout => { st with done := timeout :: st.done }

/-- The state after a list of steps. -/
def runOps (st : State) (ops : List Op) : State :=
  ops.foldl step st

/-- The step is a call of an authorizer method. -/
def Op.isCall : Op → Bool
  | .call _ => true
  | _ => false

/-- The number of authorizer calls among the steps. -/
def callCount (ops : List Op) : Nat :=
  (ops.filter Op.isCall).length

/-- The largest `int64`. -/
def maxInt64 : Int := 9223372036854775807

/-- The states the process reaches from start-up while the id counter has
not left the `int64` range. -/
def Reachable (st : State) : Prop :=
  ∃ ops : List Op, (callCount ops : Int) ≤ maxInt64 ∧ runOps State.init ops = st

/-- The ids carried by the published events, oldest first. -/
def publishedIds (st : State) : List Int :=
  st.published.map (fun e => e.2.ID)

/-- Every channel held by the registry is a capacity-1 channel with nothing
buffered, and no two ids hold the same channel. -/
structure ChanInv (st : State) : Prop where
  fresh : ∀ k ch, MapOf.Load st.requests k = some ch →
    st.chans[ch]? = some { cap := 1, buf := [] }
  inj : ∀ k k1 ch, MapOf.Load st.requests k = some ch →
    MapOf.Load st.requests k1 = some ch → k = k1

/-- The counter is within `0 .. maxInt64` and every id in the registry has
been issued: it lies in `1 .. counter`. -/
structure IdInv (st : State) : Prop where
  nonneg : 0 ≤ st.a.id.value
  le_max : st.a.id.value ≤ maxInt64
  issued : ∀ k ch, MapOf.Load st.requests k = some ch → 0 < k ∧ k ≤ st.a.id.value

/-- The step puts an entry for `id` into the registry: it calls a method
that goes through `sendAndWait`, and `send` hands that call the id `id`. -/
def registers (st : State) (id : Int) : Op → Bool
  | .call c => c.waits && decide (st.a.id.Inc.Value = id)
  | _ => false

/-- No step of the run from `st` puts an entry for `id` into the registry. -/
def noRegistration (st : State) (id : Int) : List Op → Bool
  | [] => true
  | op :: rest => !registers st id op && noRegistration (step st op) id rest

/-! ## `send`, statement by statement -/

/-- The next statement of a call of `send`: `a.id.Inc()`,
`data.ID = a.id.Value()`, `eventbus.Publish(authEvent, data)`, or none left
(the call has returned `data.ID`). -/
inductive SendPc where
  | atInc
  | atValue
  | atPublish
  | returned
deriving DecidableEq, Repr

/-- A call of `send` in progress: its local `data` and its next statement. -/
structure SendCall where
  data : authRequestEvent
  pc : SendPc
deriving DecidableEq, Repr

/-- A call of `send` that has not started. -/
def SendCall.start (data : authRequestEvent) : SendCall :=
  { data := data, pc := .atInc }

/-- Run the next statement of a call of `send`. -/
def SendCall.step (st : State) (c : SendCall) : State × SendCall :=
  match c.pc with
  | .atInc => ({ st with a := { id := st.a.id.Inc } }, { c with pc := .atValue })
  | .atValue => (st, { data := { c.data with ID := st.a.id.Value }, pc := .atPublish })
  | .atPublish =>
    ({ st with published := st.published ++ [(authEvent, c.data)] },
      { c with pc := .returned })
  | .returned => (st, c)

/-- Concurrent calls of `send` on one authorizer under a schedule: each
entry of the schedule names the call that runs its next statement. -/
def runSchedule (st : State) (calls : List SendCall) : List Nat → State × List SendCall
  | [] => (st, calls)
  | i :: rest =>
    match calls[i]? with
    | some c =>
      let (st1, c1) := c.step st
      runSchedule st1 (calls.set i c1) rest
    | none => runSchedule st calls rest

/-- The ids the calls of `send` return, in the order of the calls. -/
def assignedIds (calls : List SendCall) : List Int :=
  calls.map (fun c => c.data.ID)

/-! ## `sendAndWait`, statement by statement -/

/-- The next statement of a call of `sendAndWait`: the `make` of its channel,
the next statement of its call of `send`, the `requests.Store` of the channel
under the id `send` returned, or the `select` it is parked in. -/
inductive WaitPc where
  | atMake
  | atSend
  | atStore
  | parked
deriving DecidableEq, Repr

/-- A call of `sendAndWait` in progress: its deadline, its channel (set by
the `make`), its call of `send`, and its next statement. -/
structure WaitCall where
  timeout : AuthTimeout
  ch : Nat
  inner : SendCall
  pc : WaitPc
deriving DecidableEq, Repr

/-- A call of `sendAndWait` that has not started. -/
def WaitCall.start (timeout : AuthTimeout) (data : authRequestEvent) : WaitCall :=
  { timeout := timeout, ch := 0, inner := SendCall.start data, pc := .atMake }

/-- Run the next statement of a call of `sendAndWait`; a parked call stays
parked until `sendAndWaitResume` resumes it. -/
def WaitCall.step (st : State) (c : WaitCall) : State × WaitCall :=
  match c.pc with
  | .atMake =>
    let (ch, chans1) := makeChan st.chans 1
    ({ st with chans := chans1 }, { c with ch := ch, pc := .atSend })
  | .atSend =>
    let (st1, inner1) := c.inner.step st
    (st1, { c with inner := inner1,
                   pc := if inner1.pc = .returned then .atStore else .atSend })
  | .atStore =>
    ({ st with requests := MapOf.Store st.requests c.inner.data.ID c.ch },
      { c with pc := .parked })
  | .parked => (st, c)

/-- Concurrent calls of `sendAndWait` on one authorizer under a schedule:
each entry of the schedule names the call that runs its next statement. -/
def runWaitSchedule (st : State) (calls : List WaitCall) : List Nat → State × List WaitCall
  | [] => (st, calls)
  | i :: rest =>
    match calls[i]? with
    | some c =>
      let (st1, c1) := c.step st
      runWaitSchedule st1 (calls.set i c1) rest
    | none => runWaitSchedule st calls rest

/-- The channel exists with nothing buffered and no entry of the registry
holds it: no reply can reach the call parked on it. -/
def Orphan (st : State) (ch : Nat) : Prop :=
  (∃ c, st.chans[ch]? = some c ∧ c.buf = []) ∧ ∀ k, MapOf.Load st.requests k ≠ some ch

/-- Two calls of `sendAndWait` on a new authorizer, right after start-up,
whose statements alternate: make, make, Inc, Inc, Value, Value, Publish,
Publish, Store, Store. The state they leave and the two parked calls. -/
def overlappingCalls (t1 t2 : AuthTimeout) (d1 d2 : authRequestEvent) :
    State × List WaitCall :=
  runWaitSchedule State.init [WaitCall.start t1 d1, WaitCall.start t2 d2]
    [0, 1, 0, 1, 0, 1, 0, 1, 0, 1]

/-! ## `types.go`: the push adapter -/

/-- The struct `sse.Message`, for a payload of type `α` (`Data any`). -/
structure Message (α : Type) where
  ID : Int
  Data : α
  Retry : Int
deriving DecidableEq, Repr

/-- An `sse.Sender`: the function value that writes to one client's stream,
named by a handle. -/
structure Sender where
  handle : Nat
deriving DecidableEq, Repr

/-- The calls made on senders so far, oldest first. -/
abbrev SenderCalls (α : Type) := List (Sender × Message α)

/-- The struct `eventPublisher`. -/
structure eventPublisher where
  sender : Sender
deriving DecidableEq, Repr

/-- The conversion `int(id)` of a Go `uint` (64 bits). -/
def uintToInt (id : Nat) : Int :=
  wrapInt64 ((id % 18446744073709551616 : Nat) : Int)

/-- The method `eventPublisher.Publish`; the error the sender returns is
dropped. -/
def eventPublisher.Publish {α : Type} (e : eventPublisher) (id : Nat) (_name : String)
    (data : α) (calls : SenderCalls α) : SenderCalls α :=
  calls ++ [(e.sender, { ID := uintToInt id, Data := data, Retry := 0 })]

/-- The method `authEventID.String`. -/
def authEventID.String (_i : authEventID) : String := "auth"

/-- The method `authEventID.Value`. -/
def authEventID.Value (i : authEventID) : Nat := i

/-! ## The event bus (package `eventbus`, outside the repository) -/

/-- The type `eventbus.EventSubscriber`; the code only passes on the value of
`eventbus.NilHandler()`. -/
inductive EventSubscriber where
  | NilHandler
deriving DecidableEq, Repr

/-- Modelled from the spec: the event bus of package `eventbus`, whose code
is not in the repository (spec 4.3): whether events are enabled, and the one
subscriber slot. -/
structure EventBus where
  enabled : Bool
  publisher : Option eventPublisher
  handler : Option EventSubscriber
deriving DecidableEq, Repr

/-- Modelled from the spec: the bus "always starts Disabled" (spec 4.3), with
no subscriber. -/
def EventBus.init : EventBus :=
  { enabled := false, publisher := none, handler := none }

/-- Modelled from the spec: `eventbus.RegisterEventHandlers`, the spec's
`registerSubscriber` (spec 4.3): "installs adapter as the sole active
subscriber and marks events enabled; replaces any previously installed
subscriber". -/
def RegisterEventHandlers (_bus : EventBus) (publisher : eventPublisher)
    (handler : EventSubscriber) : EventBus :=
  { enabled := true, publisher := some publisher, handler := some handler }

/-- Modelled from the spec: `eventbus.DisableEvents`, the spec's `disable`
(spec 4.3): "marks events disabled and drops the reference to the current
subscriber. Idempotent." -/
def DisableEvents (_bus : EventBus) : EventBus :=
  { enabled := false, publisher := none, handler := none }

/-- Modelled from the spec: `eventbus.Publish` (spec 4.3): "delivers the
envelope to the current subscriber if one is registered and events are
enabled; otherwise the call is a cheap no-op". Delivery is a call of the
subscriber's `Publish` with the event id's `Value()` and `String()`. -/
def EventBus.Publish {α : Type} (bus : EventBus) (id : authEventID) (data : α)
    (calls : SenderCalls α) : SenderCalls α :=
  match bus.enabled, bus.publisher with
  | true, some e => e.Publish (authEventID.Value id) (authEventID.String id) data calls
  | _, _ => calls

/-! ## `session.go`: the event stream -/

/-- The closure `newPublisher` of `eventsEndpoint`. -/
def newPublisher (sender : Sender) : eventPublisher × EventSubscriber :=
  let eh := EventSubscriber.NilHandler
  ({ sender := sender }, eh)

/-- The handler registered by `eventsEndpoint`, up to `<-ctx.Done()`. -/
def eventsEndpoint (bus : EventBus) (send : Sender) : EventBus :=
  RegisterEventHandlers bus (newPublisher send).1 (newPublisher send).2

/-- The handler registered by `eventsEndpoint`, from the moment
`<-ctx.Done()` yields: the function returns and its deferred
`eventbus.DisableEvents()` runs. -/
def eventsEndpointDone (bus : EventBus) : EventBus :=
  DisableEvents bus

/-- What happens to a client's `/events` connection: the client connects
(its handler starts), or its connection's context is done (its handler
returns). -/
inductive StreamEvent where
  | connect (send : Sender)
  | disconnect (send : Sender)
deriving DecidableEq, Repr

/-- The bus after one stream event. -/
def streamStep (bus : EventBus) : StreamEvent → EventBus
  | .connect send => eventsEndpoint bus send
  | .disconnect _ => eventsEndpointDone bus

/-- The bus after a list of stream events. -/
def runStream (bus : EventBus) (events : List StreamEvent) : EventBus :=
  events.foldl streamStep bus

/-- The client whose connection was opened last, if any. -/
def lastConnected : List StreamEvent → Option Sender
  | [] => none
  | .connect send :: rest =>
    match lastConnected rest with
    | some s => some s
    | none => some send
  | .disconnect _ :: rest => lastConnected rest

/-- The client's connection is open at the end of the events: its last
event is a connect. -/
def isOpen (send : Sender) (events : List StreamEvent) : Bool :=
  events.foldl
    (fun o ev =>
      match ev with
      | .connect s => if s = send then true else o
      | .disconnect s => if s = send then false else o)
    false

/-! ## `cmd/app/app.go`: the `launch` command -/

/-- The constant `tcpURI`. -/
def tcpURI : String := "127.0.0.1:8888"

/-- The `cli.Command` that `cmdStart` receives: for each flag of `launch`
the value the command line or the environment set (`none`: the flag is not
set), and the package variable `sockAddress`
(`path.Join(os.TempDir(), "bluerestd.sock")`), the default of `unix-socket`. -/
structure Command where
  sockAddress : String
  authTimeout : Option Int := none
  tcpAddress : Option String := none
  usingDefaultTcp : Option Bool := none
  unixSocket : Option String := none
  usingDefaultSocket : Option Bool := none
deriving DecidableEq, Repr

/-- The method `cli.Command.IsSet`: the flag was set by the command line or
the environment. -/
def Command.IsSet (cliCmd : Command) (name : String) : Bool :=
  if name = "auth-timeout" then cliCmd.authTimeout.isSome
  else if name = "tcp-address" then cliCmd.tcpAddress.isSome
  else if name = "using-default-tcp" then cliCmd.usingDefaultTcp.isSome
  else if name = "unix-socket" then cliCmd.unixSocket.isSome
  else if name = "using-default-socket" then cliCmd.usingDefaultSocket.isSome
  else false

/-- The method `cli.Command.String` (Lean keeps the name `String` for its
type): the value set for a string flag, or the flag's `Value` (`tcpURI`,
`sockAddress`) when it is not set. -/
def Command.GetString (cliCmd : Command) (name : String) : String :=
  if name = "tcp-address" then cliCmd.tcpAddress.getD tcpURI
  else if name = "unix-socket" then cliCmd.unixSocket.getD cliCmd.sockAddress
  else ""

/-- The method `cli.Command.Duration`: the value set for a duration flag (a
`time.Duration`, an `int64` count of nanoseconds), or the flag's `Value`
(10 for `auth-timeout`) when it is not set. -/
def Command.Duration (cliCmd : Command) (name : String) : Int :=
  if name = "auth-timeout" then cliCmd.authTimeout.getD 10
  else 0

/-- How `cmdStart` goes on: it returns an error before listening, or it
calls `net.Listen(proto, addr)`. -/
inductive Started where
  | failed (msg : String)
  | listen (proto : String) (addr : String)
deriving DecidableEq, Repr

/-- The function `cmdStart` from its label `Start` up to its call of
`net.Listen`. -/
def cmdStartListen (cliCmd : Command) : Started :=
  let tcpaddr := cliCmd.GetString "tcp-address"
  let sockpath := cliCmd.GetString "unix-socket"
  let (proto, addr) :=
    if cliCmd.IsSet "using-default-socket" ||
        (cliCmd.IsSet "unix-socket" && decide (sockpath ≠ "")) then
      ("unix", sockpath)
    else ("tcp", tcpaddr)
  .listen proto addr

/-- The function `cmdStart` up to its call of `net.Listen`. -/
def cmdStart (cliCmd : Command) : Started :=
  if cliCmd.IsSet "using-default-tcp" || cliCmd.IsSet "using-default-socket" then
    cmdStartListen cliCmd
  else if cliCmd.IsSet "tcp-address" && cliCmd.IsSet "unix-socket" then
    .failed "Only one of '--tcp-address' or '--unix-socket' must be specified."
  else cmdStartListen cliCmd

/-- The constant `time.Second`, in nanoseconds. -/
def timeSecond : Int := 1000000000

/-- The product of two `time.Duration` values (`int64`, wrapping). -/
def durationMul (d1 d2 : Int) : Int := wrapInt64 (d1 * d2)

/-- The struct `config.Config`, of which the code sets `AuthTimeout`. -/
structure Config where
  AuthTimeout : Int
deriving DecidableEq, Repr

/-- The function `newSession` up to the creation of the session: it
disables the events and builds the configuration. -/
def newSession (bus : EventBus) (cliCmd : Command) : EventBus × Config :=
  let bus1 := DisableEvents bus
  let cfg : Config := { AuthTimeout := durationMul (cliCmd.Duration "auth-timeout") timeSecond }
  (bus1, cfg)

/-! ## `adapter.go`: the adapter states -/

/-- The struct `bluetooth.AdapterData` (outside the repository): the fields
the handler reads. -/
structure AdapterData where
  Powered : Bool
  Pairable : Bool
  Discoverable : Bool
  Discovering : Bool
deriving DecidableEq, Repr

/-- The value `session.Adapter(input.Address)`: the calls the handler can make
on the adapter, each acting on the state `σ` of the Bluetooth stack. -/
structure AdapterCall (σ : Type) where
  StartDiscovery : σ → σ × error
  StopDiscovery : σ → σ × error
  SetDiscoverableState : Bool → σ → σ × error
  SetPairableState : Bool → σ → σ × error
  SetPoweredState : Bool → σ → σ × error
  Properties : σ → σ × AdapterData × error

/-- The struct `AdapterStatesInput`: the four query parameters. -/
structure AdapterStatesInput where
  Powered : String
  Pairable : String
  Discoverable : String
  Discovery : String
deriving DecidableEq, Repr

/-- The body of the struct `AdapterStatesOutput`; a new one has empty fields. -/
structure AdapterStatesOutput where
  PoweredState : String := ""
  PairableState : String := ""
  DiscoverableState : String := ""
  DiscoveryState : String := ""
deriving DecidableEq, Repr

/-- The function `toggleStr`. -/
def toggleStr (val : Bool) : String :=
  if val then "enabled" else "disabled"

/-- One element of the slice `inputs` of the states handler. -/
structure StatesRow (σ : Type) where
  EnableFunc : σ → σ × error
  DisableFunc : σ → σ × error
  SetStatesProperty : String → AdapterStatesOutput → AdapterStatesOutput
  InputToCheck : String

/-- The slice `inputs` of the states handler, in its order: discovery,
discoverable, pairable, powered. -/
def statesInputs {σ : Type} (adapterCall : AdapterCall σ) (input : AdapterStatesInput) :
    List (StatesRow σ) :=
  [ { InputToCheck := input.Discovery,
      EnableFunc := adapterCall.StartDiscovery,
      DisableFunc := adapterCall.StopDiscovery,
      SetStatesProperty := fun toggle states => { states with DiscoveryState := toggle } },
    { InputToCheck := input.Discoverable,
      EnableFunc := adapterCall.SetDiscoverableState true,
      DisableFunc := adapterCall.SetDiscoverableState false,
      SetStatesProperty := fun toggle states => { states with DiscoverableState := toggle } },
    { InputToCheck := input.Pairable,
      EnableFunc := adapterCall.SetPairableState true,
      DisableFunc := adapterCall.SetPairableState false,
      SetStatesProperty := fun toggle states => { states with PairableState := toggle } },
    { InputToCheck := input.Powered,
      EnableFunc := adapterCall.SetPoweredState true,
      DisableFunc := adapterCall.SetPoweredState false,
      SetStatesProperty := fun toggle states => { states with PoweredState := toggle } } ]

/-- The variables the loop of the states handler works on: the state of the
Bluetooth stack, `states`, `errs` and `emptyInputs`. -/
structure StatesLoop (σ : Type) where
  stack : σ
  states : AdapterStatesOutput
  errs : error
  emptyInputs : Nat

/-- The end of one iteration of the loop: fold `err` into `errs` (the first
error, or `fmt.Errorf("%w, %w", errs, err)`) and set the state. -/
def statesLoopSet {σ : Type} (acc : StatesLoop σ) (row : StatesRow σ) (stack : σ)
    (err : error) (state : String) : StatesLoop σ :=
  let errs : error :=
    match err with
    | some e =>
      match acc.errs with
      | none => some e
      | some e0 => some (.errorString (e0.Error ++ ", " ++ e.Error))
    | none => acc.errs
  { acc with stack := stack, errs := errs, states := row.SetStatesProperty state acc.states }

/-- One iteration of the loop of the states handler. -/
def statesLoopBody {σ : Type} (acc : StatesLoop σ) (row : StatesRow σ) : StatesLoop σ :=
  if row.InputToCheck = "enable" then
    let (stack, err) := row.EnableFunc acc.stack
    statesLoopSet acc row stack err "enabled"
  else if row.InputToCheck = "disable" then
    let (stack, err) := row.DisableFunc acc.stack
    statesLoopSet acc row stack err "disabled"
  else if row.InputToCheck = "" then
    { acc with emptyInputs := acc.emptyInputs + 1 }
  else statesLoopSet acc row acc.stack none ""

/-- The handler registered by `statesEndpoint`: the state of the Bluetooth
stack afterwards, and the body or the error returned. -/
def statesEndpoint {σ : Type} (adapterCall : AdapterCall σ) (input : AdapterStatesInput)
    (stack : σ) : σ × Option AdapterStatesOutput × error :=
  let inputs := statesInputs adapterCall input
  let acc := inputs.foldl statesLoopBody
    { stack := stack, states := {}, errs := none, emptyInputs := 0 }
  match acc.errs with
  | some e => (acc.stack, none, some e)
  | none =>
    if acc.emptyInputs = inputs.length then
      let (stack1, properties, perr) := adapterCall.Properties acc.stack
      match perr with
      | some e => (stack1, none, some e)
      | none =>
        (stack1,
          some { DiscoverableState := toggleStr properties.Discoverable,
                 PairableState := toggleStr properties.Pairable,
                 DiscoveryState := toggleStr properties.Discovering,
                 PoweredState := toggleStr properties.Powered },
          none)
    else (acc.stack, some acc.states, none)

/-- The state the loop of the states handler sets for a parameter's value:
"enabled" for "enable", "disabled" for "disable", nothing otherwise. -/
def requestedState (v : String) : String :=
  if v = "enable" then "enabled" else if v = "disable" then "disabled" else ""

/-! ## `obex.go`: starting a file transfer -/

/-- The value `obexCall.FileTransfer()` and the handler's `ctx`: the calls the
handler can make, each acting on the state `σ` of the Bluetooth stack, and
whether `ctx.Done()` is closed in a state. -/
structure FileTransfer (σ : Type) where
  CreateSession : σ → σ × error
  SendFile : String → σ → σ × FileTransferData × error
  CancelTransfer : σ → σ × error
  ctxDone : σ → Bool

/-- The errors the file transfer handler returns: a `huma` status error, or
the error of a call. -/
inductive ResponseError where
  | status (code : Nat) (detail : String)
  | call (err : GoError)
deriving DecidableEq, Repr

/-- The loop of the start-file-transfer handler over the remaining paths,
with the files queued so far. -/
def startTransferLoop {σ : Type} (ft : FileTransfer σ) :
    List String → List FileTransferData → σ →
      σ × Option (List FileTransferData) × Option ResponseError
  | [], queued, stack => (stack, some queued, none)
  | file :: rest, queued, stack =>
    if ft.ctxDone stack then
      let (stack1, err) := ft.CancelTransfer stack
      (stack1, none, err.map ResponseError.call)
    else
      match ft.SendFile file stack with
      | (stack1, _, some err) => (stack1, none, some (.call err))
      | (stack1, data, none) => startTransferLoop ft rest (queued ++ [data]) stack1

/-- The handler registered by `startTransferEndpoint`: the state of the
Bluetooth stack afterwards, and the queued files or the error returned. -/
def startTransferEndpoint {σ : Type} (ft : FileTransfer σ) (FilePaths : List String)
    (stack : σ) : σ × Option (List FileTransferData) × Option ResponseError :=
  if FilePaths.length = 0 then
    (stack, none, some (.status 422 "Empty filepath set provided."))
  else
    match ft.CreateSession stack with
    | (stack1, some err) => (stack1, none, some (.call err))
    | (stack1, none) => startTransferLoop ft FilePaths [] stack1

/-- In the words of the claim: SendFile on each path, in input order; the
state of the Bluetooth stack afterwards and the results. -/
def sendInOrder {σ : Type} (ft : FileTransfer σ) : List String → σ → σ × List FileTransferData
  | [], stack => (stack, [])
  | file :: rest, stack =>
    let r := ft.SendFile file stack
    let rs := sendInOrder ft rest r.1
    (rs.1, r.2.1 :: rs.2)

/-- An adapter for examples: every call succeeds and is recorded in the
state, and `Properties` answers `props`. -/
def recordingAdapter (props : AdapterData) : AdapterCall (List String) :=
  { StartDiscovery := fun calls => (calls ++ ["StartDiscovery"], none),
    StopDiscovery := fun calls => (calls ++ ["StopDiscovery"], none),
    SetDiscoverableState := fun b calls =>
      (calls ++ [if b then "SetDiscoverableState(true)" else "SetDiscoverableState(false)"],
        none),
    SetPairableState := fun b calls =>
      (calls ++ [if b then "SetPairableState(true)" else "SetPairableState(false)"], none),
    SetPoweredState := fun b calls =>
      (calls ++ [if b then "SetPoweredState(true)" else "SetPoweredState(false)"], none),
    Properties := fun calls => (calls ++ ["Properties"], props, none) }

/-- A file transfer for examples: every call is recorded in the state, the
context is never done, and `SendFile` fails on the path `failing` only. -/
def recordingTransfer (failing : String) : FileTransfer (List String) :=
  { CreateSession := fun calls => (calls ++ ["CreateSession"], none),
    SendFile := fun file calls =>
      (calls ++ ["SendFile " ++ file], { fields := [("name", file)] },
        if file = failing then some (.errorString "send failed") else none),
    CancelTransfer := fun calls => (calls ++ ["CancelTransfer"], none),
    ctxDone := fun _ => false }

/-! ## The registry as a finite map -/

theorem MapOf.Load_Delete (m : MapOf) (key k : Int) :
    MapOf.Load (MapOf.Delete m key) k = if k = key then none else MapOf.Load m k := by
  induction m with
  | nil => simp [MapOf.Delete, MapOf.Load]
  | cons e rest ih =>
    obtain ⟨k0, v0⟩ := e
    unfold MapOf.Delete at ih ⊢
    by_cases h0 : k0 = key
    · subst h0
      simp only [List.filter, ne_eq, not_true_eq_false, decide_False]
      rw [ih]
      by_cases hk : k = k0
      · simp [hk]
      · have : ¬ k0 = k := fun h => hk h.symm
        simp [hk, MapOf.Load, this]
    · simp only [List.filter, ne_eq, h0, not_false_eq_true, decide_True, MapOf.Load]
      rw [ih]
      by_cases hk : k = key
      · subst hk
        simp [h0]
      · simp [hk]

theorem MapOf.Load_Store (m : MapOf) (key k : Int) (v : Nat) :
    MapOf.Load (MapOf.Store m key v) k = if k = key then some v else MapOf.Load m k := by
  unfold MapOf.Store
  by_cases hk : k = key
  · subst hk
    simp [MapOf.Load]
  · have : ¬ key = k := fun h => hk h.symm
    simp [MapOf.Load, this, hk, MapOf.Load_Delete]

theorem wrapInt64_succ (c : Int) (h0 : 0 ≤ c) (h1 : c < maxInt64) :
    wrapInt64 (c + 1) = c + 1 := by
  unfold wrapInt64
  unfold maxInt64 at h1
  omega

/-! ## What each function does to each part of the state -/

theorem send_fst (st : State) (data : authRequestEvent) :
    (send st data).1 =
      { st with a := { id := st.a.id.Inc },
                published := st.published ++
                  [(authEvent, { data with ID := wrapInt64 (st.a.id.value + 1) })] } := rfl

theorem send_snd (st : State) (data : authRequestEvent) :
    (send st data).2 = wrapInt64 (st.a.id.value + 1) := rfl

theorem sendAndWait_fst (st : State) (timeout : AuthTimeout) (data : authRequestEvent) :
    (sendAndWait st timeout data).1 =
      { a := { id := st.a.id.Inc },
        requests := MapOf.Store st.requests (wrapInt64 (st.a.id.value + 1)) st.chans.length,
        chans := st.chans ++ [{ cap := 1, buf := [] }],
        done := st.done,
        published := st.published ++
          [(authEvent, { data with ID := wrapInt64 (st.a.id.value + 1) })] } := rfl

theorem sendAndWait_snd (st : State) (timeout : AuthTimeout) (data : authRequestEvent) :
    (sendAndWait st timeout data).2 = .waiting timeout st.chans.length := rfl

theorem AuthCall.run_cases (st : State) (c : AuthCall) :
    (c.waits = true ∧ ∃ timeout data, c.run st = sendAndWait st timeout data) ∨
      (c.waits = false ∧ ∃ data, c.run st = ((send st data).1, .returned none)) := by
  cases c
  · exact Or.inl ⟨rfl, _, _, rfl⟩
  · exact Or.inr ⟨rfl, _, rfl⟩
  · exact Or.inr ⟨rfl, _, rfl⟩
  · exact Or.inl ⟨rfl, _, _, rfl⟩
  · exact Or.inl ⟨rfl, _, _, rfl⟩
  · exact Or.inl ⟨rfl, _, _, rfl⟩

theorem authEndpoint_invalid (st : State) (input : AuthInput) (h : input.ID ≤ 0) :
    authEndpoint st input =
      (st, .returned (some (.errorString "invalid authorization ID"))) := by
  simp [authEndpoint, h]

theorem authEndpoint_missing (st : State) (input : AuthInput) (h : 0 < input.ID)
    (hl : MapOf.Load st.requests input.ID = none) :
    authEndpoint st input =
      (st, .returned (some (.errorString "authorization ID not found"))) := by
  have h1 : ¬ input.ID ≤ 0 := by omega
  simp [authEndpoint, h1, MapOf.LoadAndDelete, hl]

theorem authEndpoint_pending (st : State) (input : AuthInput) (ch : Nat)
    (h : 0 < input.ID) (hl : MapOf.Load st.requests input.ID = some ch)
    (hc : st.chans[ch]? = some { cap := 1, buf := [] }) :
    authEndpoint st input =
      ({ st with
          requests := MapOf.Delete st.requests input.ID,
          chans := st.chans.set ch
            { cap := 1, buf := [⟨input.Reason, decide (input.Reply = "yes")⟩] } },
        .returned none) := by
  have h1 : ¬ input.ID ≤ 0 := by omega
  simp [authEndpoint, h1, MapOf.LoadAndDelete, hl, chanSend, hc]

theorem chanRecv_some (chans : Chans) (ch : Nat) (r : authEventReply) (chans1 : Chans)
    (h : chanRecv chans ch = some (r, chans1)) :
    ∃ c rest, chans[ch]? = some c ∧ c.buf = r :: rest ∧
      chans1 = chans.set ch { c with buf := rest } := by
  unfold chanRecv at h
  cases hc : chans[ch]? with
  | none => simp [hc] at h
  | some c =>
    rw [hc] at h
    cases hb : c.buf with
    | nil => simp [hb] at h
    | cons v rest =>
      simp only [hb, Option.some.injEq, Prod.mk.injEq] at h
      exact ⟨c, rest, rfl, by rw [hb, h.1], h.2.symm⟩

/-! ## Invariants of the interleavings -/

theorem ChanInv_init : ChanInv State.init :=
  ⟨fun k ch h => by simp [State.init, MapOf.Load] at h,
   fun k k1 ch h => by simp [State.init, MapOf.Load] at h⟩

theorem ChanInv_sendAndWait (st : State) (timeout : AuthTimeout) (data : authRequestEvent)
    (hI : ChanInv st) : ChanInv (sendAndWait st timeout data).1 := by
  rw [sendAndWait_fst]
  have hlt : ∀ k ch, MapOf.Load st.requests k = some ch → ch < st.chans.length := by
    intro k ch h
    have := hI.fresh k ch h
    exact (List.getElem?_eq_some.mp this).1
  constructor
  · intro k ch h
    simp only [MapOf.Load_Store] at h
    split at h
    · simp only [Option.some.injEq] at h
      subst h
      simp
    · have hc := hI.fresh k ch h
      have hl := hlt k ch h
      simp only
      rw [List.getElem?_append_left hl]
      exact hc
  · intro k k1 ch h h1
    simp only [MapOf.Load_Store] at h h1
    split at h <;> split at h1
    · omega
    · simp only [Option.some.injEq] at h
      have := hlt k1 ch h1
      omega
    · simp only [Option.some.injEq] at h1
      have := hlt k ch h
      omega
    · exact hI.inj k k1 ch h h1

theorem ChanInv_authEndpoint (st : State) (input : AuthInput) (hI : ChanInv st) :
    ChanInv (authEndpoint st input).1 := by
  by_cases h : input.ID ≤ 0
  · rw [authEndpoint_invalid st input h]
    exact hI
  · have hpos : 0 < input.ID := by omega
    cases hl : MapOf.Load st.requests input.ID with
    | none =>
      rw [authEndpoint_missing st input hpos hl]
      exact hI
    | some ch =>
      rw [authEndpoint_pending st input ch hpos hl (hI.fresh _ _ hl)]
      constructor
      · intro k c hk
        simp only [MapOf.Load_Delete] at hk
        split at hk
        · simp at hk
        · rename_i hne
          have hcne : ch ≠ c := by
            intro he
            subst he
            exact hne (hI.inj k input.ID ch hk hl)
          simp only
          rw [List.getElem?_set_ne hcne]
          exact hI.fresh k c hk
      · intro k k1 c hk hk1
        simp only [MapOf.Load_Delete] at hk hk1
        split at hk
        · simp at hk
        · split at hk1
          · simp at hk1
          · exact hI.inj k k1 c hk hk1

theorem ChanInv_resume (st st1 : State) (timeout : AuthTimeout) (ch : Nat)
    (pick : SelectCase) (err : error) (hI : ChanInv st)
    (h : sendAndWaitResume st timeout ch pick = some (st1, err)) : ChanInv st1 := by
  cases pick with
  | timeoutDone =>
    simp only [sendAndWaitResume] at h
    split at h
    · simp only [Option.some.injEq, Prod.mk.injEq] at h
      rw [← h.1]
      exact hI
    · simp at h
  | replyReceived =>
    simp only [sendAndWaitResume] at h
    cases hr : chanRecv st.chans ch with
    | none => simp [hr] at h
    | some p =>
      obtain ⟨r, chans1⟩ := p
      rw [hr] at h
      simp only [Option.some.injEq, Prod.mk.injEq] at h
      obtain ⟨c, rest, hc, hb, hset⟩ := chanRecv_some _ _ _ _ hr
      have hne : ∀ k c1, MapOf.Load st.requests k = some c1 → ch ≠ c1 := by
        intro k c1 hk he
        subst he
        have := hI.fresh k ch hk
        rw [hc] at this
        simp only [Option.some.injEq] at this
        rw [this] at hb
        simp at hb
      rw [← h.1]
      constructor
      · intro k c1 hk
        simp only at hk ⊢
        rw [hset, List.getElem?_set_ne (hne k c1 hk)]
        exact hI.fresh k c1 hk
      · intro k k1 c1 hk hk1
        exact hI.inj k k1 c1 hk hk1

theorem ChanInv_step (st : State) (op : Op) (hI : ChanInv st) : ChanInv (step st op) := by
  cases op with
  | call c =>
    simp only [step]
    rcases AuthCall.run_cases st c with ⟨hw, t, data, h⟩ | ⟨hw, data, h⟩
    · rw [h]
      exact ChanInv_sendAndWait st t data hI
    · rw [h, send_fst]
      exact ⟨hI.fresh, hI.inj⟩
  | resume timeout ch pick =>
    simp only [step]
    cases h : sendAndWaitResume st timeout ch pick with
    | none => exact hI
    | some p => exact ChanInv_resume st p.1 timeout ch pick p.2 hI h
  | reply input => exact ChanInv_authEndpoint st input hI
  | deadline timeout => exact ⟨hI.fresh, hI.inj⟩

theorem ChanInv_runOps (ops : List Op) (st : State) (hI : ChanInv st) :
    ChanInv (runOps st ops) := by
  induction ops generalizing st with
  | nil => exact hI
  | cons op rest ih => exact ih (step st op) (ChanInv_step st op hI)

theorem sendAndWaitResume_frame (st st1 : State) (timeout : AuthTimeout) (ch : Nat)
    (pick : SelectCase) (err : error)
    (h : sendAndWaitResume st timeout ch pick = some (st1, err)) :
    st1.a = st.a ∧ st1.requests = st.requests ∧ st1.done = st.done ∧
      st1.published = st.published := by
  cases pick with
  | timeoutDone =>
    simp only [sendAndWaitResume] at h
    split at h
    · simp only [Option.some.injEq, Prod.mk.injEq] at h
      rw [← h.1]
      exact ⟨rfl, rfl, rfl, rfl⟩
    · simp at h
  | replyReceived =>
    simp only [sendAndWaitResume] at h
    cases hr : chanRecv st.chans ch with
    | none => simp [hr] at h
    | some p =>
      rw [hr] at h
      simp only [Option.some.injEq, Prod.mk.injEq] at h
      rw [← h.1]
      exact ⟨rfl, rfl, rfl, rfl⟩

theorem authEndpoint_frame (st : State) (input : AuthInput) :
    (authEndpoint st input).1.a = st.a ∧
      (authEndpoint st input).1.done = st.done ∧
      (authEndpoint st input).1.published = st.published ∧
      ∀ k ch, MapOf.Load (authEndpoint st input).1.requests k = some ch →
        MapOf.Load st.requests k = some ch := by
  unfold authEndpoint
  split
  · exact ⟨rfl, rfl, rfl, fun _ _ h => h⟩
  · simp only [MapOf.LoadAndDelete]
    cases hl : MapOf.Load st.requests input.ID with
    | none => exact ⟨rfl, rfl, rfl, fun _ _ h => h⟩
    | some ch =>
      have hd : ∀ k c, MapOf.Load (MapOf.Delete st.requests input.ID) k = some c →
          MapOf.Load st.requests k = some c := by
        intro k c hk
        rw [MapOf.Load_Delete] at hk
        split at hk
        · simp at hk
        · exact hk
      simp only
      split
      · exact ⟨rfl, rfl, rfl, hd⟩
      · exact ⟨rfl, rfl, rfl, hd⟩

theorem step_id (st : State) (op : Op) :
    (step st op).a.id.value =
      if op.isCall then wrapInt64 (st.a.id.value + 1) else st.a.id.value := by
  cases op with
  | call c =>
    simp only [step, Op.isCall, if_true]
    rcases AuthCall.run_cases st c with ⟨hw, t, data, h⟩ | ⟨hw, data, h⟩
    · rw [h, sendAndWait_fst]
      rfl
    · rw [h, send_fst]
      rfl
  | resume timeout ch pick =>
    simp only [step, Op.isCall]
    cases h : sendAndWaitResume st timeout ch pick with
    | none => simp
    | some p =>
      have := (sendAndWaitResume_frame st p.1 timeout ch pick p.2 h).1
      simp [this]
  | reply input =>
    simp only [step, Op.isCall]
    simp [(authEndpoint_frame st input).1]
  | deadline timeout => simp [step, Op.isCall]

theorem step_Load (st : State) (op : Op) (k : Int) (ch : Nat)
    (h : MapOf.Load (step st op).requests k = some ch) :
    MapOf.Load st.requests k = some ch ∨
      (op.isCall = true ∧ k = wrapInt64 (st.a.id.value + 1) ∧
        registers st k op = true) := by
  cases op with
  | call c =>
    simp only [step] at h
    rcases AuthCall.run_cases st c with ⟨hw, t, data, hc⟩ | ⟨hw, data, hc⟩
    · rw [hc, sendAndWait_fst] at h
      simp only [MapOf.Load_Store] at h
      split at h
      · rename_i hk
        refine Or.inr ⟨rfl, hk, ?_⟩
        simp [registers, hw, Counter.Inc, Counter.Value, hk]
      · exact Or.inl h
    · rw [hc, send_fst] at h
      exact Or.inl h
  | resume timeout ch1 pick =>
    simp only [step] at h
    cases hr : sendAndWaitResume st timeout ch1 pick with
    | none =>
      rw [hr] at h
      exact Or.inl h
    | some p =>
      rw [hr] at h
      have := (sendAndWaitResume_frame st p.1 timeout ch1 pick p.2 hr).2.1
      simp only [this] at h
      exact Or.inl h
  | reply input => exact Or.inl ((authEndpoint_frame st input).2.2.2 k ch h)
  | deadline timeout => exact Or.inl h

theorem IdInv_init : IdInv State.init :=
  ⟨by decide, by decide, fun k ch h => by simp [State.init, MapOf.Load] at h⟩

theorem IdInv_step (st : State) (op : Op) (hI : IdInv st)
    (hb : op.isCall = true → st.a.id.value < maxInt64) : IdInv (step st op) := by
  have hid := step_id st op
  by_cases hc : op.isCall = true
  · have hw := wrapInt64_succ st.a.id.value hI.nonneg (hb hc)
    simp only [hc, if_true, hw] at hid
    have hlt := hb hc
    have h0 := hI.nonneg
    refine ⟨by omega, by omega, ?_⟩
    intro k ch h
    rcases step_Load st op k ch h with h1 | ⟨_, h1, _⟩
    · have := hI.issued k ch h1
      omega
    · have := hI.nonneg
      omega
  · simp only [hc] at hid
    refine ⟨by rw [hid]; exact hI.nonneg, by rw [hid]; exact hI.le_max, ?_⟩
    intro k ch h
    rcases step_Load st op k ch h with h1 | ⟨h1, _⟩
    · rw [hid]
      exact hI.issued k ch h1
    · exact absurd h1 hc

theorem callCount_cons (op : Op) (ops : List Op) :
    callCount (op :: ops) = (if op.isCall then 1 else 0) + callCount ops := by
  unfold callCount
  by_cases h : op.isCall = true
  · simp [List.filter, h]
    omega
  · simp [List.filter, h]

theorem IdInv_runOps (ops : List Op) (st : State) (hI : IdInv st)
    (hb : st.a.id.value + callCount ops ≤ maxInt64) :
    IdInv (runOps st ops) ∧
      (runOps st ops).a.id.value = st.a.id.value + callCount ops := by
  induction ops generalizing st with
  | nil => exact ⟨hI, by simp [runOps, callCount]⟩
  | cons op rest ih =>
    rw [callCount_cons] at hb
    have hguard : op.isCall = true → st.a.id.value < maxInt64 := by
      intro hc
      simp only [hc, if_true] at hb
      push_cast at hb
      omega
    have hI1 := IdInv_step st op hI hguard
    have hid := step_id st op
    have hval : (step st op).a.id.value =
        st.a.id.value + ((if op.isCall then 1 else 0 : Nat) : Int) := by
      by_cases hc : op.isCall = true
      · simp only [hc, if_true] at hid ⊢
        rw [hid, wrapInt64_succ st.a.id.value hI.nonneg (hguard hc)]
        simp
      · simp only [hc] at hid ⊢
        simp [hid]
    have hb1 : (step st op).a.id.value + callCount rest ≤ maxInt64 := by
      rw [hval]
      push_cast at hb ⊢
      omega
    obtain ⟨h1, h2⟩ := ih (step st op) hI1 hb1
    refine ⟨h1, ?_⟩
    show (runOps (step st op) rest).a.id.value = _
    rw [h2, hval, callCount_cons]
    push_cast
    omega

theorem Reachable_inv (st : State) (h : Reachable st) : ChanInv st ∧ IdInv st := by
  obtain ⟨ops, hb, rfl⟩ := h
  refine ⟨ChanInv_runOps ops _ ChanInv_init, (IdInv_runOps ops _ IdInv_init ?_).1⟩
  simpa [State.init, NewAuthorizer, NewCounter] using hb

theorem absent_runOps (ops : List Op) (st : State) (id : Int)
    (habs : MapOf.Load st.requests id = none) (hno : noRegistration st id ops = true) :
    MapOf.Load (runOps st ops).requests id = none := by
  induction ops generalizing st with
  | nil => exact habs
  | cons op rest ih =>
    simp only [noRegistration, Bool.and_eq_true, Bool.not_eq_true'] at hno
    apply ih (step st op) _ hno.2
    cases hl : MapOf.Load (step st op).requests id with
    | none => rfl
    | some ch =>
      rcases step_Load st op id ch hl with h1 | ⟨_, _, h1⟩
      · rw [habs] at h1
        exact absurd h1 (by simp)
      · rw [hno.1] at h1
        exact absurd h1 (by simp)

theorem step_publishedIds (st : State) (op : Op) :
    publishedIds (step st op) =
      publishedIds st ++ (if op.isCall then [wrapInt64 (st.a.id.value + 1)] else []) := by
  cases op with
  | call c =>
    simp only [step, Op.isCall, if_true]
    rcases AuthCall.run_cases st c with ⟨hw, t, data, h⟩ | ⟨hw, data, h⟩
    · rw [h, sendAndWait_fst]
      simp [publishedIds]
    · rw [h, send_fst]
      simp [publishedIds]
  | resume timeout ch pick =>
    simp only [step, Op.isCall]
    cases h : sendAndWaitResume st timeout ch pick with
    | none => simp
    | some p =>
      have := (sendAndWaitResume_frame st p.1 timeout ch pick p.2 h).2.2.2
      simp [publishedIds, this]
  | reply input =>
    simp only [step, Op.isCall]
    simp [publishedIds, (authEndpoint_frame st input).2.2.1]
  | deadline timeout => simp [step, Op.isCall, publishedIds]

theorem publishedIds_runOps (ops : List Op) (st : State) (hI : IdInv st)
    (hb : st.a.id.value + callCount ops ≤ maxInt64) :
    publishedIds (runOps st ops) =
      publishedIds st ++
        (List.range (callCount ops)).map (fun k => st.a.id.value + ((k : Nat) : Int) + 1) := by
  induction ops generalizing st with
  | nil => simp [runOps, callCount]
  | cons op rest ih =>
    have hb0 := hb
    rw [callCount_cons] at hb
    have hguard : op.isCall = true → st.a.id.value < maxInt64 := by
      intro hc
      simp only [hc, if_true] at hb
      push_cast at hb
      omega
    have hI1 := IdInv_step st op hI hguard
    have hid := step_id st op
    show publishedIds (runOps (step st op) rest) = _
    by_cases hc : op.isCall = true
    · simp only [hc, if_true] at hid hb
      rw [wrapInt64_succ st.a.id.value hI.nonneg (hguard hc)] at hid
      have hb1 : (step st op).a.id.value + callCount rest ≤ maxInt64 := by
        rw [hid]
        push_cast at hb
        omega
      rw [ih (step st op) hI1 hb1, step_publishedIds, callCount_cons, hid]
      simp only [hc, if_true, wrapInt64_succ st.a.id.value hI.nonneg (hguard hc)]
      rw [Nat.add_comm 1, List.range_succ_eq_map]
      simp only [List.map_cons, List.map_map, List.append_assoc, List.singleton_append,
        Nat.cast_zero, add_zero]
      congr 2
      apply List.map_congr_left
      intro k _
      simp only [Function.comp, Nat.cast_succ]
      omega
    · simp only [hc] at hid hb
      have hb1 : (step st op).a.id.value + callCount rest ≤ maxInt64 := by
        rw [hid]
        simpa using hb
      rw [ih (step st op) hI1 hb1, step_publishedIds, callCount_cons, hid]
      simp [hc]

/-! ## The select of `sendAndWait` -/

theorem sendAndWaitResume_timeout (st : State) (timeout : AuthTimeout) (ch : Nat)
    (hd : timeout ∈ st.done) :
    sendAndWaitResume st timeout ch .timeoutDone =
      some (st, some (.authReply { reason := "", reply := false })) := by
  simp [sendAndWaitResume, hd, sendAndWaitReturn]

theorem sendAndWaitResume_reply (st : State) (timeout : AuthTimeout) (ch : Nat)
    (r : authEventReply) (chans1 : Chans) (hr : chanRecv st.chans ch = some (r, chans1)) :
    sendAndWaitResume st timeout ch .replyReceived =
      some ({ st with chans := chans1 }, if r.reply then none else some (.authReply r)) := by
  simp [sendAndWaitResume, hr, sendAndWaitReturn]

theorem sendAndWaitResume_nil_iff (st s3 : State) (timeout : AuthTimeout) (ch : Nat)
    (pick : SelectCase) (err : error)
    (h : sendAndWaitResume st timeout ch pick = some (s3, err)) :
    err = none ↔ pick = .replyReceived ∧
      ∃ r chans1, chanRecv st.chans ch = some (r, chans1) ∧ r.reply = true := by
  cases pick with
  | timeoutDone =>
    simp only [sendAndWaitResume] at h
    split at h
    · simp only [Option.some.injEq, Prod.mk.injEq] at h
      rw [← h.2]
      simp [sendAndWaitReturn]
    · simp at h
  | replyReceived =>
    cases hr : chanRecv st.chans ch with
    | none => simp [sendAndWaitResume, hr] at h
    | some p =>
      obtain ⟨r, chans1⟩ := p
      rw [sendAndWaitResume_reply st timeout ch r chans1 hr] at h
      simp only [Option.some.injEq, Prod.mk.injEq] at h
      rw [← h.2]
      cases hb : r.reply <;> simp [hb]

/-! ## The claims -/

/-- C1: in every state reached from start-up by steps of `Op` (with the id
counter still inside the int64 range), for every id with a pending entry in
the registry the first call of the reply handler for that id returns no
error, and after any further steps that do not register that id again every
later call of the handler for that id returns the error
"authorization ID not found". -/
theorem C1_first_reply_succeeds_later_not_found (st : State) (hR : Reachable st)
    (id : Int) (ch : Nat) (hp : MapOf.Load st.requests id = some ch)
    (first : AuthInput) (hf : first.ID = id) :
    (authEndpoint st first).2 = .returned none ∧
      ∀ (ops : List Op) (later : AuthInput), later.ID = id →
        noRegistration (authEndpoint st first).1 id ops = true →
        (authEndpoint (runOps (authEndpoint st first).1 ops) later).2 =
          .returned (some (.errorString "authorization ID not found")) := by
  obtain ⟨hC, hI⟩ := Reachable_inv st hR
  subst hf
  have hpos : 0 < first.ID := (hI.issued _ ch hp).1
  have hfirst := authEndpoint_pending st first ch hpos hp (hC.fresh _ ch hp)
  refine ⟨by rw [hfirst], ?_⟩
  intro ops later hl hno
  have habs : MapOf.Load (authEndpoint st first).1.requests first.ID = none := by
    rw [hfirst]
    simp [MapOf.Load_Delete]
  have := absent_runOps ops _ first.ID habs hno
  rw [← hl] at this hpos
  rw [authEndpoint_missing _ later hpos this]

/-- Witness of C1: one pending call, answered twice. -/
theorem C1_first_reply_succeeds_later_not_found_witness :
    (authEndpoint (runOps State.init [.call (.AuthorizePairing ⟨0⟩ ⟨[]⟩)])
        ⟨"yes", "", 1⟩).2 = .returned none ∧
      (authEndpoint
        (runOps (authEndpoint (runOps State.init [.call (.AuthorizePairing ⟨0⟩ ⟨[]⟩)])
          ⟨"yes", "", 1⟩).1 [.reply ⟨"no", "again", 1⟩, .deadline ⟨0⟩])
        ⟨"yes", "", 1⟩).2 =
        .returned (some (.errorString "authorization ID not found")) :=
  have h := C1_first_reply_succeeds_later_not_found
    (runOps State.init [.call (.AuthorizePairing ⟨0⟩ ⟨[]⟩)])
    ⟨[.call (.AuthorizePairing ⟨0⟩ ⟨[]⟩)], by decide, rfl⟩ 1 0 (by decide)
    ⟨"yes", "", 1⟩ rfl
  ⟨h.1, h.2 [.reply ⟨"no", "again", 1⟩, .deadline ⟨0⟩] ⟨"yes", "", 1⟩ rfl (by decide)⟩

/-- C2: a call of ConfirmPasskey, AuthorizePairing, AuthorizeService or
AuthorizeTransfer parks in the select of sendAndWait; the select returns
through whichever ready case it takes (the deadline has passed, or a reply is
buffered on the channel), and the call returns nil if and only if the select
took the reply case and the reply received has accepted = true; every other
outcome (a reply with accepted = false, the timeout case) is a non-nil
error. -/
theorem C2_nil_iff_accepted_reply (c : AuthCall) (hw : c.waits = true) (st s2 : State)
    (pick : SelectCase) :
    ∃ timeout ch, (c.run st).2 = .waiting timeout ch ∧
      (timeout ∈ s2.done →
        (sendAndWaitResume s2 timeout ch .timeoutDone).isSome = true) ∧
      (∀ r chans1, chanRecv s2.chans ch = some (r, chans1) →
        (sendAndWaitResume s2 timeout ch .replyReceived).isSome = true) ∧
      ∀ s3 err, sendAndWaitResume s2 timeout ch pick = some (s3, err) →
        (err = none ↔ pick = .replyReceived ∧
          ∃ r chans1, chanRecv s2.chans ch = some (r, chans1) ∧ r.reply = true) := by
  have key : ∀ timeout ch,
      (timeout ∈ s2.done →
        (sendAndWaitResume s2 timeout ch .timeoutDone).isSome = true) ∧
      (∀ r chans1, chanRecv s2.chans ch = some (r, chans1) →
        (sendAndWaitResume s2 timeout ch .replyReceived).isSome = true) ∧
      ∀ s3 err, sendAndWaitResume s2 timeout ch pick = some (s3, err) →
        (err = none ↔ pick = .replyReceived ∧
          ∃ r chans1, chanRecv s2.chans ch = some (r, chans1) ∧ r.reply = true) := by
    intro timeout ch
    refine ⟨fun hd => ?_, fun r chans1 hr => ?_, fun s3 err h => ?_⟩
    · rw [sendAndWaitResume_timeout s2 timeout ch hd]
      rfl
    · rw [sendAndWaitResume_reply s2 timeout ch r chans1 hr]
      rfl
    · exact sendAndWaitResume_nil_iff s2 s3 timeout ch pick err h
  rcases AuthCall.run_cases st c with ⟨_, t, data, h⟩ | ⟨hw1, _⟩
  · exact ⟨t, st.chans.length, by rw [h, sendAndWait_snd], key t st.chans.length⟩
  · rw [hw] at hw1
    exact absurd hw1 (by simp)

/-- Witness of C2: AuthorizePairing answered "yes" through the reply handler. -/
theorem C2_nil_iff_accepted_reply_witness :
    ∃ timeout ch,
      (AuthCall.run State.init (.AuthorizePairing ⟨0⟩ ⟨[]⟩)).2 = .waiting timeout ch ∧
      (timeout ∈ (runOps State.init
          [.call (.AuthorizePairing ⟨0⟩ ⟨[]⟩), .reply ⟨"yes", "", 1⟩]).done →
        (sendAndWaitResume (runOps State.init
          [.call (.AuthorizePairing ⟨0⟩ ⟨[]⟩), .reply ⟨"yes", "", 1⟩])
          timeout ch .timeoutDone).isSome = true) ∧
      (∀ r chans1, chanRecv (runOps State.init
          [.call (.AuthorizePairing ⟨0⟩ ⟨[]⟩), .reply ⟨"yes", "", 1⟩]).chans ch =
            some (r, chans1) →
        (sendAndWaitResume (runOps State.init
          [.call (.AuthorizePairing ⟨0⟩ ⟨[]⟩), .reply ⟨"yes", "", 1⟩])
          timeout ch .replyReceived).isSome = true) ∧
      ∀ s3 err, sendAndWaitResume (runOps State.init
          [.call (.AuthorizePairing ⟨0⟩ ⟨[]⟩), .reply ⟨"yes", "", 1⟩])
          timeout ch .replyReceived = some (s3, err) →
        (err = none ↔ SelectCase.replyReceived = .replyReceived ∧
          ∃ r chans1, chanRecv (runOps State.init
            [.call (.AuthorizePairing ⟨0⟩ ⟨[]⟩), .reply ⟨"yes", "", 1⟩]).chans ch =
              some (r, chans1) ∧ r.reply = true) :=
  C2_nil_iff_accepted_reply (.AuthorizePairing ⟨0⟩ ⟨[]⟩) rfl State.init
    (runOps State.init [.call (.AuthorizePairing ⟨0⟩ ⟨[]⟩), .reply ⟨"yes", "", 1⟩])
    .replyReceived

/-- C3: when the select of sendAndWait receives a reply with accepted = false,
the call returns that reply as its error, and the message of the error is the
reply's reason verbatim when the reason is not empty and
"The authorization request was not accepted." when the reason is empty. -/
theorem C3_rejection_message (st : State) (timeout : AuthTimeout) (ch : Nat)
    (r : authEventReply) (chans1 : Chans)
    (hr : chanRecv st.chans ch = some (r, chans1)) (hno : r.reply = false) :
    ∃ err, sendAndWaitResume st timeout ch .replyReceived =
        some ({ st with chans := chans1 }, some err) ∧
      (r.reason ≠ "" → err.Error = r.reason) ∧
      (r.reason = "" → err.Error = "The authorization request was not accepted.") := by
  refine ⟨.authReply r, ?_, ?_, ?_⟩
  · rw [sendAndWaitResume_reply st timeout ch r chans1 hr]
    simp [hno]
  · intro hne
    simp [GoError.Error, authEventReply.Error, hno, hne]
  · intro he
    simp [GoError.Error, authEventReply.Error, hno, he]

/-- Witness of C3: AuthorizePairing answered "no" with a reason. -/
theorem C3_rejection_message_witness :
    ∃ err, sendAndWaitResume
        (runOps State.init
          [.call (.AuthorizePairing ⟨0⟩ ⟨[]⟩), .reply ⟨"no", "not now", 1⟩])
        ⟨0⟩ 0 .replyReceived =
        some ({ (runOps State.init
          [.call (.AuthorizePairing ⟨0⟩ ⟨[]⟩), .reply ⟨"no", "not now", 1⟩]) with
            chans := [{ cap := 1, buf := [] }] }, some err) ∧
      (("not now" : String) ≠ "" → err.Error = "not now") ∧
      (("not now" : String) = "" →
        err.Error = "The authorization request was not accepted.") :=
  C3_rejection_message
    (runOps State.init [.call (.AuthorizePairing ⟨0⟩ ⟨[]⟩), .reply ⟨"no", "not now", 1⟩])
    ⟨0⟩ 0 ⟨"not now", false⟩ [{ cap := 1, buf := [] }] (by decide) rfl

/-- C4: for every request payload, a call of sendAndWait parks on its deadline
and its channel; once the deadline has passed the timeout case of the select
returns a non-nil error whose message is exactly
"The authorization request was not accepted.", never nil; and while no reply
is buffered on the channel the timeout case is the only one the select can
take. -/
theorem C4_timeout_generic_rejection (st : State) (timeout : AuthTimeout)
    (data : authRequestEvent) (s2 : State) (hd : timeout ∈ s2.done) :
    (sendAndWait st timeout data).2 = .waiting timeout st.chans.length ∧
      (∃ err, sendAndWaitResume s2 timeout st.chans.length .timeoutDone =
          some (s2, some err) ∧
        err.Error = "The authorization request was not accepted.") ∧
      (chanRecv s2.chans st.chans.length = none →
        ∀ pick s3 e, sendAndWaitResume s2 timeout st.chans.length pick = some (s3, e) →
          pick = .timeoutDone) := by
  refine ⟨rfl, ⟨.authReply { reason := "", reply := false },
    sendAndWaitResume_timeout s2 timeout _ hd, by decide⟩, ?_⟩
  intro hempty pick s3 e h
  cases pick with
  | timeoutDone => rfl
  | replyReceived => simp [sendAndWaitResume, hempty] at h

/-- Witness of C4: AuthorizeTransfer whose deadline passes unanswered. -/
theorem C4_timeout_generic_rejection_witness :
    (sendAndWait State.init ⟨3⟩ { AuthType := "transfer", ReplyRequired := true }).2 =
        .waiting ⟨3⟩ 0 ∧
      (∃ err, sendAndWaitResume
          (runOps State.init [.call (.AuthorizeTransfer ⟨3⟩ ⟨[]⟩), .deadline ⟨3⟩])
          ⟨3⟩ 0 .timeoutDone =
          some (runOps State.init [.call (.AuthorizeTransfer ⟨3⟩ ⟨[]⟩), .deadline ⟨3⟩],
            some err) ∧
        err.Error = "The authorization request was not accepted.") ∧
      (chanRecv (runOps State.init
          [.call (.AuthorizeTransfer ⟨3⟩ ⟨[]⟩), .deadline ⟨3⟩]).chans 0 = none →
        ∀ pick s3 e, sendAndWaitResume
          (runOps State.init [.call (.AuthorizeTransfer ⟨3⟩ ⟨[]⟩), .deadline ⟨3⟩])
          ⟨3⟩ 0 pick = some (s3, e) → pick = .timeoutDone) :=
  C4_timeout_generic_rejection State.init ⟨3⟩
    { AuthType := "transfer", ReplyRequired := true }
    (runOps State.init [.call (.AuthorizeTransfer ⟨3⟩ ⟨[]⟩), .deadline ⟨3⟩]) (by decide)

/-- C5: when a call of sendAndWait ends through the timeout case of its
select, the select and the return change nothing in the state; so when the
registry at that moment is the one the call left right after storing its
entry, the registry after the call is that same registry, and the entry for
the call's id is still there, mapped to the call's channel. -/
theorem C5_timeout_leaves_registry (st : State) (timeout : AuthTimeout)
    (data : authRequestEvent) (s2 : State) (hd : timeout ∈ s2.done)
    (hreg : s2.requests = (sendAndWait st timeout data).1.requests) :
    ∃ s3 err, sendAndWaitResume s2 timeout st.chans.length .timeoutDone = some (s3, err) ∧
      s3 = s2 ∧
      s3.requests = (sendAndWait st timeout data).1.requests ∧
      MapOf.Load s3.requests (send st data).2 = some st.chans.length := by
  refine ⟨s2, _, sendAndWaitResume_timeout s2 timeout _ hd, rfl, hreg, ?_⟩
  rw [hreg, sendAndWait_fst, send_snd]
  simp [MapOf.Load_Store]

/-- Witness of C5: a second pending call times out; both entries stay. -/
theorem C5_timeout_leaves_registry_witness :
    ∃ s3 err, sendAndWaitResume
        (step (sendAndWait (runOps State.init [.call (.AuthorizePairing ⟨0⟩ ⟨[]⟩)]) ⟨5⟩ {}).1
          (.deadline ⟨5⟩))
        ⟨5⟩ (runOps State.init [.call (.AuthorizePairing ⟨0⟩ ⟨[]⟩)]).chans.length
        .timeoutDone = some (s3, err) ∧
      s3 = step (sendAndWait (runOps State.init [.call (.AuthorizePairing ⟨0⟩ ⟨[]⟩)])
          ⟨5⟩ {}).1 (.deadline ⟨5⟩) ∧
      s3.requests =
        (sendAndWait (runOps State.init [.call (.AuthorizePairing ⟨0⟩ ⟨[]⟩)]) ⟨5⟩ {}).1.requests ∧
      MapOf.Load s3.requests
        (send (runOps State.init [.call (.AuthorizePairing ⟨0⟩ ⟨[]⟩)]) {}).2 =
        some (runOps State.init [.call (.AuthorizePairing ⟨0⟩ ⟨[]⟩)]).chans.length :=
  C5_timeout_leaves_registry (runOps State.init [.call (.AuthorizePairing ⟨0⟩ ⟨[]⟩)]) ⟨5⟩ {}
    (step (sendAndWait (runOps State.init [.call (.AuthorizePairing ⟨0⟩ ⟨[]⟩)]) ⟨5⟩ {}).1
      (.deadline ⟨5⟩))
    (by decide) rfl

/-- C6, counterexample: AuthorizePairing gets id 1, its deadline passes and
the call ends through the timeout case with an error; a reply submitted
afterwards for id 1 is not rejected: the handler returns no error, removes
the entry and leaves the reply buffered on the channel nobody reads. -/
theorem C6_stale_reply_is_accepted :
    sendAndWaitResume
        (runOps State.init [.call (.AuthorizePairing ⟨0⟩ ⟨[]⟩), .deadline ⟨0⟩])
        ⟨0⟩ 0 .timeoutDone =
        some (runOps State.init [.call (.AuthorizePairing ⟨0⟩ ⟨[]⟩), .deadline ⟨0⟩],
          some (.authReply { reason := "", reply := false })) ∧
      (authEndpoint
        (runOps State.init [.call (.AuthorizePairing ⟨0⟩ ⟨[]⟩), .deadline ⟨0⟩,
          .resume ⟨0⟩ 0 .timeoutDone])
        ⟨"yes", "", 1⟩).2 = .returned none ∧
      (authEndpoint
        (runOps State.init [.call (.AuthorizePairing ⟨0⟩ ⟨[]⟩), .deadline ⟨0⟩,
          .resume ⟨0⟩ 0 .timeoutDone])
        ⟨"yes", "", 1⟩).2 ≠
          .returned (some (.errorString "authorization ID not found")) ∧
      (authEndpoint
        (runOps State.init [.call (.AuthorizePairing ⟨0⟩ ⟨[]⟩), .deadline ⟨0⟩,
          .resume ⟨0⟩ 0 .timeoutDone])
        ⟨"yes", "", 1⟩).1.chans = [{ cap := 1, buf := [⟨"", true⟩] }] := by
  decide

/-- C6, amended: in a state the process reaches, take an id with a pending
entry whose call ends through the timeout case. The call returns its error
and leaves the entry; the stale reply submitted next for that id is accepted
(no error, the entry is removed, the reply is buffered on the channel); a
duplicate reply, submitted for the id once it has been replied to, is rejected
with "authorization ID not found" and changes nothing. -/
theorem C6_duplicate_rejected_stale_accepted (st : State) (hR : Reachable st)
    (id : Int) (ch : Nat) (hp : MapOf.Load st.requests id = some ch)
    (timeout : AuthTimeout) (hd : timeout ∈ st.done)
    (stale dup : AuthInput) (hs : stale.ID = id) (hdup : dup.ID = id) :
    sendAndWaitResume st timeout ch .timeoutDone =
        some (st, some (.authReply { reason := "", reply := false })) ∧
      authEndpoint st stale =
        ({ st with
            requests := MapOf.Delete st.requests id,
            chans := st.chans.set ch
              { cap := 1, buf := [⟨stale.Reason, decide (stale.Reply = "yes")⟩] } },
          .returned none) ∧
      authEndpoint (authEndpoint st stale).1 dup =
        ((authEndpoint st stale).1,
          .returned (some (.errorString "authorization ID not found"))) := by
  obtain ⟨hC, hI⟩ := Reachable_inv st hR
  subst hs
  have hpos : 0 < stale.ID := (hI.issued _ ch hp).1
  have hfirst := authEndpoint_pending st stale ch hpos hp (hC.fresh _ ch hp)
  refine ⟨sendAndWaitResume_timeout st timeout ch hd, hfirst, ?_⟩
  have habs : MapOf.Load (authEndpoint st stale).1.requests dup.ID = none := by
    rw [hfirst, hdup]
    simp [MapOf.Load_Delete]
  rw [← hdup] at hpos
  exact authEndpoint_missing _ dup hpos habs

/-- Witness of the amended C6. -/
theorem C6_duplicate_rejected_stale_accepted_witness :
    authEndpoint (authEndpoint
        (runOps State.init [.call (.AuthorizePairing ⟨0⟩ ⟨[]⟩), .deadline ⟨0⟩])
        ⟨"no", "late", 1⟩).1 ⟨"no", "late", 1⟩ =
      ((authEndpoint
        (runOps State.init [.call (.AuthorizePairing ⟨0⟩ ⟨[]⟩), .deadline ⟨0⟩])
        ⟨"no", "late", 1⟩).1,
        .returned (some (.errorString "authorization ID not found"))) :=
  (C6_duplicate_rejected_stale_accepted
    (runOps State.init [.call (.AuthorizePairing ⟨0⟩ ⟨[]⟩), .deadline ⟨0⟩])
    ⟨[.call (.AuthorizePairing ⟨0⟩ ⟨[]⟩), .deadline ⟨0⟩], by decide, rfl⟩
    1 0 (by decide) ⟨0⟩ (by decide) ⟨"no", "late", 1⟩ ⟨"no", "late", 1⟩ rfl rfl).2.2

/-- C7: for every auth_id <= 0, every reply and reason and every state, even
one whose registry holds that key, the reply handler returns the error
"invalid authorization ID" and leaves the whole state as it was: no entry is
removed and no channel receives a value. -/
theorem C7_nonpositive_id_invalid (st : State) (input : AuthInput) (h : input.ID ≤ 0) :
    authEndpoint st input =
        (st, .returned (some (.errorString "invalid authorization ID"))) ∧
      (authEndpoint st input).1.requests = st.requests ∧
      (authEndpoint st input).1.chans = st.chans := by
  rw [authEndpoint_invalid st input h]
  exact ⟨rfl, rfl, rfl⟩

/-- Witness of C7: the registry holds the key 0 and the handler still leaves it. -/
theorem C7_nonpositive_id_invalid_witness :
    authEndpoint
        { State.init with requests := [(0, 0)], chans := [{ cap := 1, buf := [] }] }
        ⟨"yes", "", 0⟩ =
        ({ State.init with requests := [(0, 0)], chans := [{ cap := 1, buf := [] }] },
          .returned (some (.errorString "invalid authorization ID"))) ∧
      (authEndpoint
        { State.init with requests := [(0, 0)], chans := [{ cap := 1, buf := [] }] }
        ⟨"yes", "", 0⟩).1.requests = [(0, 0)] ∧
      (authEndpoint
        { State.init with requests := [(0, 0)], chans := [{ cap := 1, buf := [] }] }
        ⟨"yes", "", 0⟩).1.chans = [{ cap := 1, buf := [] }] :=
  C7_nonpositive_id_invalid
    { State.init with requests := [(0, 0)], chans := [{ cap := 1, buf := [] }] }
    ⟨"yes", "", 0⟩ (by decide)

/-- C8: for every id > 0 with no entry in the registry, the reply handler
returns the error "authorization ID not found", which is not success, and
leaves the registry (and the rest of the state) unchanged. -/
theorem C8_unregistered_id_not_found (st : State) (input : AuthInput) (h : 0 < input.ID)
    (hl : MapOf.Load st.requests input.ID = none) :
    (authEndpoint st input).2 =
        .returned (some (.errorString "authorization ID not found")) ∧
      (authEndpoint st input).2 ≠ .returned none ∧
      (authEndpoint st input).1.requests = st.requests ∧
      (authEndpoint st input).1 = st := by
  rw [authEndpoint_missing st input h hl]
  exact ⟨rfl, by simp, rfl, rfl⟩

/-- Witness of C8: id 2 while only id 1 is pending. -/
theorem C8_unregistered_id_not_found_witness :
    (authEndpoint (runOps State.init [.call (.AuthorizePairing ⟨0⟩ ⟨[]⟩)])
        ⟨"yes", "", 2⟩).2 =
        .returned (some (.errorString "authorization ID not found")) ∧
      (authEndpoint (runOps State.init [.call (.AuthorizePairing ⟨0⟩ ⟨[]⟩)])
        ⟨"yes", "", 2⟩).2 ≠ .returned none ∧
      (authEndpoint (runOps State.init [.call (.AuthorizePairing ⟨0⟩ ⟨[]⟩)])
        ⟨"yes", "", 2⟩).1.requests =
        (runOps State.init [.call (.AuthorizePairing ⟨0⟩ ⟨[]⟩)]).requests ∧
      (authEndpoint (runOps State.init [.call (.AuthorizePairing ⟨0⟩ ⟨[]⟩)])
        ⟨"yes", "", 2⟩).1 = runOps State.init [.call (.AuthorizePairing ⟨0⟩ ⟨[]⟩)] :=
  C8_unregistered_id_not_found (runOps State.init [.call (.AuthorizePairing ⟨0⟩ ⟨[]⟩)])
    ⟨"yes", "", 2⟩ (by decide) (by decide)

/-- C9: in every state reached from start-up by any steps of `Op`, for
every id > 0 with a pending entry the reply handler returns no error; it
removes that id's entry and every other id maps to what it mapped to before;
the entry's channel, empty before, now buffers exactly one reply, whose
accepted flag is true if and only if the reply string is "yes" and whose
reason is the request's reason; every other channel and the rest of the state
are unchanged. -/
theorem C9_pending_id_delivers (ops : List Op) (input : AuthInput) (ch : Nat)
    (h : 0 < input.ID)
    (hp : MapOf.Load (runOps State.init ops).requests input.ID = some ch) :
    (authEndpoint (runOps State.init ops) input).2 = .returned none ∧
      MapOf.Load (authEndpoint (runOps State.init ops) input).1.requests input.ID = none ∧
      (∀ k, k ≠ input.ID →
        MapOf.Load (authEndpoint (runOps State.init ops) input).1.requests k =
          MapOf.Load (runOps State.init ops).requests k) ∧
      (runOps State.init ops).chans[ch]? = some { cap := 1, buf := [] } ∧
      (∃ accepted : Bool, (accepted = true ↔ input.Reply = "yes") ∧
        (authEndpoint (runOps State.init ops) input).1.chans[ch]? =
          some { cap := 1, buf := [{ reason := input.Reason, reply := accepted }] }) ∧
      (∀ c, c ≠ ch →
        (authEndpoint (runOps State.init ops) input).1.chans[c]? =
          (runOps State.init ops).chans[c]?) ∧
      (authEndpoint (runOps State.init ops) input).1.a = (runOps State.init ops).a ∧
      (authEndpoint (runOps State.init ops) input).1.done = (runOps State.init ops).done ∧
      (authEndpoint (runOps State.init ops) input).1.published =
        (runOps State.init ops).published := by
  have hC := ChanInv_runOps ops State.init ChanInv_init
  have hfresh := hC.fresh _ ch hp
  have hlt : ch < (runOps State.init ops).chans.length :=
    (List.getElem?_eq_some.mp hfresh).1
  rw [authEndpoint_pending _ input ch h hp hfresh]
  refine ⟨rfl, by simp [MapOf.Load_Delete], ?_, hfresh, ?_, ?_, rfl, rfl, rfl⟩
  · intro k hk
    simp [MapOf.Load_Delete, hk]
  · refine ⟨decide (input.Reply = "yes"), by simp, ?_⟩
    simp only
    rw [List.getElem?_set_self hlt]
  · intro c hc
    simp only
    rw [List.getElem?_set_ne (Ne.symm hc)]

/-- Witness of C9: two pending calls, the second answered "no" with a reason. -/
theorem C9_pending_id_delivers_witness :
    (authEndpoint (runOps State.init
        [.call (.AuthorizePairing ⟨0⟩ ⟨[]⟩), .call (.ConfirmPasskey ⟨1⟩ ⟨[]⟩ 42)])
        ⟨"no", "busy", 2⟩).2 = .returned none ∧
      (∀ k, k ≠ 2 →
        MapOf.Load (authEndpoint (runOps State.init
          [.call (.AuthorizePairing ⟨0⟩ ⟨[]⟩), .call (.ConfirmPasskey ⟨1⟩ ⟨[]⟩ 42)])
          ⟨"no", "busy", 2⟩).1.requests k =
        MapOf.Load (runOps State.init
          [.call (.AuthorizePairing ⟨0⟩ ⟨[]⟩), .call (.ConfirmPasskey ⟨1⟩ ⟨[]⟩ 42)]).requests
          k) :=
  have h := C9_pending_id_delivers
    [.call (.AuthorizePairing ⟨0⟩ ⟨[]⟩), .call (.ConfirmPasskey ⟨1⟩ ⟨[]⟩ 42)]
    ⟨"no", "busy", 2⟩ 1 (by decide) (by decide)
  ⟨h.1, h.2.2.1⟩

/-- C10: starting from a new Authorizer, for every run in which calls of the
six methods follow one another (each running `send` before the next one
starts, with any replies, deadlines and resumptions in between) and the
number of calls stays within the int64 range, the k-th call is assigned the
id k: the ids are 1, 2, ..., n in call order, and each id is strictly greater
than every id assigned before it. -/
theorem C10_kth_call_gets_id_k (ops : List Op) (hb : (callCount ops : Int) ≤ maxInt64) :
    publishedIds (runOps State.init ops) =
        (List.range (callCount ops)).map (fun k => ((k : Nat) : Int) + 1) ∧
      (publishedIds (runOps State.init ops)).Pairwise (fun i j => i < j) := by
  have hlist : publishedIds (runOps State.init ops) =
      (List.range (callCount ops)).map (fun k => ((k : Nat) : Int) + 1) := by
    have hb0 : State.init.a.id.value + callCount ops ≤ maxInt64 := by
      simpa [State.init, NewAuthorizer, NewCounter] using hb
    rw [publishedIds_runOps ops State.init IdInv_init hb0]
    simp [publishedIds, State.init, NewAuthorizer, NewCounter]
  refine ⟨hlist, ?_⟩
  rw [hlist, List.pairwise_map]
  exact (List.pairwise_lt_range _).imp (fun hlt => by omega)

/-- Witness of C10: the six methods called one after the other. -/
theorem C10_kth_call_gets_id_k_witness :
    publishedIds (runOps State.init
        [.call (.AuthorizeTransfer ⟨0⟩ ⟨[]⟩), .call (.DisplayPinCode ⟨0⟩ ⟨[]⟩ "0000"),
          .call (.DisplayPasskey ⟨0⟩ ⟨[]⟩ 123456 2), .call (.ConfirmPasskey ⟨0⟩ ⟨[]⟩ 7),
          .call (.AuthorizePairing ⟨0⟩ ⟨[]⟩), .call (.AuthorizeService ⟨0⟩ ⟨[]⟩ ⟨[]⟩)]) =
        (List.range (callCount
          [.call (.AuthorizeTransfer ⟨0⟩ ⟨[]⟩), .call (.DisplayPinCode ⟨0⟩ ⟨[]⟩ "0000"),
            .call (.DisplayPasskey ⟨0⟩ ⟨[]⟩ 123456 2), .call (.ConfirmPasskey ⟨0⟩ ⟨[]⟩ 7),
            .call (.AuthorizePairing ⟨0⟩ ⟨[]⟩),
            .call (.AuthorizeService ⟨0⟩ ⟨[]⟩ ⟨[]⟩)])).map
          (fun k => ((k : Nat) : Int) + 1) ∧
      (publishedIds (runOps State.init
        [.call (.AuthorizeTransfer ⟨0⟩ ⟨[]⟩), .call (.DisplayPinCode ⟨0⟩ ⟨[]⟩ "0000"),
          .call (.DisplayPasskey ⟨0⟩ ⟨[]⟩ 123456 2), .call (.ConfirmPasskey ⟨0⟩ ⟨[]⟩ 7),
          .call (.AuthorizePairing ⟨0⟩ ⟨[]⟩),
          .call (.AuthorizeService ⟨0⟩ ⟨[]⟩ ⟨[]⟩)])).Pairwise (fun i j => i < j) :=
  C10_kth_call_gets_id_k
    [.call (.AuthorizeTransfer ⟨0⟩ ⟨[]⟩), .call (.DisplayPinCode ⟨0⟩ ⟨[]⟩ "0000"),
      .call (.DisplayPasskey ⟨0⟩ ⟨[]⟩ 123456 2), .call (.ConfirmPasskey ⟨0⟩ ⟨[]⟩ 7),
      .call (.AuthorizePairing ⟨0⟩ ⟨[]⟩), .call (.AuthorizeService ⟨0⟩ ⟨[]⟩ ⟨[]⟩)]
    (by decide)

/-! ## `send` under a schedule -/

theorem runSchedule_alone (st : State) (data : authRequestEvent) :
    runSchedule st [SendCall.start data] [0, 0, 0] =
      ((send st data).1,
        [{ data := { data with ID := (send st data).2 }, pc := .returned }]) := rfl

/-- C11, the code at the failing input: two calls of send run concurrently on
one authorizer, from any state and with any payloads, under the schedule
Inc, Inc, Value, Value, Publish, Publish. Both calls have returned, and both
return (and publish) the same id, the counter after the two increments: the
ids assigned are not pairwise distinct. -/
theorem C11_interleaved_sends_get_the_same_id (st : State) (d1 d2 : authRequestEvent) :
    (runSchedule st [SendCall.start d1, SendCall.start d2] [0, 1, 0, 1, 0, 1]).2.map
        (fun c => c.pc) = [.returned, .returned] ∧
      assignedIds (runSchedule st [SendCall.start d1, SendCall.start d2]
        [0, 1, 0, 1, 0, 1]).2 = [st.a.id.Inc.Inc.Value, st.a.id.Inc.Inc.Value] ∧
      publishedIds (runSchedule st [SendCall.start d1, SendCall.start d2]
        [0, 1, 0, 1, 0, 1]).1 =
        publishedIds st ++ [st.a.id.Inc.Inc.Value, st.a.id.Inc.Inc.Value] ∧
      ¬ (assignedIds (runSchedule st [SendCall.start d1, SendCall.start d2]
        [0, 1, 0, 1, 0, 1]).2).Pairwise (fun i j => i ≠ j) := by
  refine ⟨rfl, rfl, ?_, ?_⟩
  · simp [runSchedule, SendCall.step, SendCall.start, publishedIds]
  · simp [runSchedule, SendCall.step, SendCall.start, assignedIds]

/-- C12, the code at the failing input: inside sendAndWait the event is
published by send while the registry is still the one from before the call,
and the entry is stored only afterwards. So when the id is new, at the moment
the event is published the registry has no entry for it, a reply submitted at
that moment for the published id gets "authorization ID not found" and
changes nothing, and the state sendAndWait parks in is that state with the
entry added. -/
theorem C12_event_is_published_before_entry_is_stored (st : State)
    (timeout : AuthTimeout) (data : authRequestEvent)
    (hnew : MapOf.Load st.requests (send st data).2 = none)
    (hpos : 0 < (send st data).2) :
    (send { st with chans := (makeChan st.chans 1).2 } data).1.published =
        st.published ++ [(authEvent, { data with ID := (send st data).2 })] ∧
      (send { st with chans := (makeChan st.chans 1).2 } data).1.requests = st.requests ∧
      MapOf.Load (send { st with chans := (makeChan st.chans 1).2 } data).1.requests
        (send st data).2 = none ∧
      (∀ reply reason,
        authEndpoint (send { st with chans := (makeChan st.chans 1).2 } data).1
            ⟨reply, reason, (send st data).2⟩ =
          ((send { st with chans := (makeChan st.chans 1).2 } data).1,
            .returned (some (.errorString "authorization ID not found")))) ∧
      (sendAndWait st timeout data).1 =
        { (send { st with chans := (makeChan st.chans 1).2 } data).1 with
          requests := MapOf.Store
            (send { st with chans := (makeChan st.chans 1).2 } data).1.requests
            (send st data).2 (makeChan st.chans 1).1 } := by
  refine ⟨rfl, rfl, hnew, ?_, rfl⟩
  intro reply reason
  exact authEndpoint_missing _ ⟨reply, reason, (send st data).2⟩ hpos hnew

/-- Witness of C12: the first call after start-up, answered at once. -/
theorem C12_event_is_published_before_entry_is_stored_witness :
    publishedIds (send { State.init with chans := (makeChan State.init.chans 1).2 }
        { AuthType := "pairing", ReplyRequired := true }).1 = [1] ∧
      authEndpoint (send { State.init with chans := (makeChan State.init.chans 1).2 }
          { AuthType := "pairing", ReplyRequired := true }).1 ⟨"yes", "", 1⟩ =
        ((send { State.init with chans := (makeChan State.init.chans 1).2 }
          { AuthType := "pairing", ReplyRequired := true }).1,
          .returned (some (.errorString "authorization ID not found"))) :=
  ⟨by decide,
    (C12_event_is_published_before_entry_is_stored State.init ⟨0⟩
      { AuthType := "pairing", ReplyRequired := true } (by decide) (by decide)).2.2.2.1
      "yes" ""⟩

/-- C13: for every state, address, pincode, passkey and entered count,
DisplayPinCode and DisplayPasskey return nil, give the same result for every
timeout, publish one event with reply_required = false carrying the id they
consume, and leave the registry and the channels unchanged, so the registry
has no entry for that id unless it had one before. -/
theorem C13_display_calls_do_not_register (st : State) (t1 t2 : AuthTimeout)
    (address : MacAddress) (pincode : String) (passkey entered : Nat) :
    ((DisplayPinCode st t1 address pincode).2 = .returned none ∧
      DisplayPinCode st t1 address pincode = DisplayPinCode st t2 address pincode ∧
      (DisplayPinCode st t1 address pincode).1.requests = st.requests ∧
      (DisplayPinCode st t1 address pincode).1.chans = st.chans ∧
      ∃ e, (DisplayPinCode st t1 address pincode).1.published =
          st.published ++ [(authEvent, e)] ∧
        e.ReplyRequired = false ∧ e.ID = st.a.id.Inc.Value ∧
        MapOf.Load (DisplayPinCode st t1 address pincode).1.requests e.ID =
          MapOf.Load st.requests e.ID) ∧
    ((DisplayPasskey st t1 address passkey entered).2 = .returned none ∧
      DisplayPasskey st t1 address passkey entered =
        DisplayPasskey st t2 address passkey entered ∧
      (DisplayPasskey st t1 address passkey entered).1.requests = st.requests ∧
      (DisplayPasskey st t1 address passkey entered).1.chans = st.chans ∧
      ∃ e, (DisplayPasskey st t1 address passkey entered).1.published =
          st.published ++ [(authEvent, e)] ∧
        e.ReplyRequired = false ∧ e.ID = st.a.id.Inc.Value ∧
        MapOf.Load (DisplayPasskey st t1 address passkey entered).1.requests e.ID =
          MapOf.Load st.requests e.ID) :=
  ⟨⟨rfl, rfl, rfl, rfl, _, rfl, rfl, rfl, rfl⟩, ⟨rfl, rfl, rfl, rfl, _, rfl, rfl, rfl, rfl⟩⟩

theorem AuthCall.run_effect (st : State) (c : AuthCall) :
    (c.run st).1.a.id = st.a.id.Inc ∧
      ∃ e, (c.run st).1.published = st.published ++ [(authEvent, e)] ∧
        e.ID = (c.run st).1.a.id.Value := by
  rcases AuthCall.run_cases st c with ⟨_, t, data, h⟩ | ⟨_, data, h⟩
  · rw [h, sendAndWait_fst]
    exact ⟨rfl, _, rfl, rfl⟩
  · rw [h, send_fst]
    exact ⟨rfl, _, rfl, rfl⟩

/-- C14: for every call of any of the six methods, run from any state (calls
not overlapping inside send), the counter after the call is the counter after
one Inc (the old value plus one, inside the int64 range), the published log
grows by exactly one event, and that event's auth_id is the counter value
after the increment; however the call ends (the select takes the reply case,
with an accepted or a rejected reply, or the timeout case) and whatever the
reply handler does, the counter and the published log are left as they are. -/
theorem C14_one_increment_one_publish (c : AuthCall) (st : State) :
    (c.run st).1.a.id = st.a.id.Inc ∧
      (-9223372036854775808 ≤ st.a.id.value → st.a.id.value < maxInt64 →
        (c.run st).1.a.id.value = st.a.id.value + 1) ∧
      (∃ e, (c.run st).1.published = st.published ++ [(authEvent, e)] ∧
        e.ID = (c.run st).1.a.id.Value) ∧
      (∀ s2 timeout ch pick s3 err,
        sendAndWaitResume s2 timeout ch pick = some (s3, err) →
          s3.a = s2.a ∧ s3.published = s2.published) ∧
      ∀ s2 input, (authEndpoint s2 input).1.a = s2.a ∧
        (authEndpoint s2 input).1.published = s2.published := by
  obtain ⟨hinc, hpub⟩ := AuthCall.run_effect st c
  refine ⟨hinc, ?_, hpub, ?_, ?_⟩
  · intro hlo hhi
    rw [hinc]
    simp only [Counter.Inc, wrapInt64]
    unfold maxInt64 at hhi
    omega
  · intro s2 timeout ch pick s3 err h
    have hf := sendAndWaitResume_frame s2 s3 timeout ch pick err h
    exact ⟨hf.1, hf.2.2.2⟩
  · intro s2 input
    have hf := authEndpoint_frame s2 input
    exact ⟨hf.1, hf.2.2.1⟩

/-- Witness of C14: the second call after start-up. -/
theorem C14_one_increment_one_publish_witness :
    (AuthCall.run (runOps State.init [.call (.DisplayPinCode ⟨0⟩ ⟨[]⟩ "1234")])
        (.AuthorizeTransfer ⟨1⟩ ⟨[]⟩)).1.a.id.value = 2 ∧
      publishedIds (AuthCall.run
        (runOps State.init [.call (.DisplayPinCode ⟨0⟩ ⟨[]⟩ "1234")])
        (.AuthorizeTransfer ⟨1⟩ ⟨[]⟩)).1 = [1, 2] :=
  ⟨(C14_one_increment_one_publish (.AuthorizeTransfer ⟨1⟩ ⟨[]⟩)
      (runOps State.init [.call (.DisplayPinCode ⟨0⟩ ⟨[]⟩ "1234")])).2.1
      (by decide) (by decide),
    by decide⟩

/-- A call of one of the four methods that go through sendAndWait whose
statements run with no other call in between, from a state whose counter is
in 0 .. maxInt64 - 1: the auth_id of the event it publishes is the key under
which its channel is stored. A reply "yes" submitted for that auth_id right
after the entry is stored returns no error; the select of the waiting call
can then take the reply case, which makes the call return nil, and as long as
the deadline has not passed every case the select can take makes the call
return nil. -/
theorem alone_reply_yes_returns_nil (c : AuthCall) (hw : c.waits = true)
    (st : State) (h0 : 0 ≤ st.a.id.value) (h1 : st.a.id.value < maxInt64) :
    ∃ timeout ch e, (c.run st).2 = .waiting timeout ch ∧
      (c.run st).1.published = st.published ++ [(authEvent, e)] ∧
      MapOf.Load (c.run st).1.requests e.ID = some ch ∧
      ∀ reason,
        (authEndpoint (c.run st).1 ⟨"yes", reason, e.ID⟩).2 = .returned none ∧
        (∃ s3, sendAndWaitResume (authEndpoint (c.run st).1 ⟨"yes", reason, e.ID⟩).1
          timeout ch .replyReceived = some (s3, none)) ∧
        (timeout ∉ (authEndpoint (c.run st).1 ⟨"yes", reason, e.ID⟩).1.done →
          ∀ pick s3 err,
            sendAndWaitResume (authEndpoint (c.run st).1 ⟨"yes", reason, e.ID⟩).1
              timeout ch pick = some (s3, err) → err = none) := by
  rcases AuthCall.run_cases st c with ⟨_, t, data, h⟩ | ⟨hw1, _⟩
  swap
  · rw [hw] at hw1
    exact absurd hw1 (by simp)
  have hid : wrapInt64 (st.a.id.value + 1) = st.a.id.value + 1 :=
    wrapInt64_succ _ h0 h1
  refine ⟨t, st.chans.length, { data with ID := wrapInt64 (st.a.id.value + 1) }, ?_, ?_, ?_, ?_⟩
  · rw [h, sendAndWait_snd]
  · rw [h, sendAndWait_fst]
  · rw [h, sendAndWait_fst]
    simp [MapOf.Load_Store]
  · intro reason
    rw [h]
    have hpos : 0 < (⟨"yes", reason, wrapInt64 (st.a.id.value + 1)⟩ : AuthInput).ID := by
      show 0 < wrapInt64 (st.a.id.value + 1)
      omega
    have hl : MapOf.Load (sendAndWait st t data).1.requests
        (⟨"yes", reason, wrapInt64 (st.a.id.value + 1)⟩ : AuthInput).ID =
          some st.chans.length := by
      rw [sendAndWait_fst]
      simp [MapOf.Load_Store]
    have hc : (sendAndWait st t data).1.chans[st.chans.length]? =
        some { cap := 1, buf := [] } := by
      rw [sendAndWait_fst]
      simp
    have hlen : st.chans.length < (sendAndWait st t data).1.chans.length := by
      rw [sendAndWait_fst]
      simp
    have hend := authEndpoint_pending (sendAndWait st t data).1
      ⟨"yes", reason, wrapInt64 (st.a.id.value + 1)⟩ st.chans.length hpos hl hc
    have hrecv : chanRecv
        (authEndpoint (sendAndWait st t data).1
          ⟨"yes", reason, wrapInt64 (st.a.id.value + 1)⟩).1.chans st.chans.length =
        some (⟨reason, true⟩,
          ((sendAndWait st t data).1.chans.set st.chans.length
            { cap := 1, buf := [⟨reason, true⟩] }).set st.chans.length
            { cap := 1, buf := [] }) := by
      rw [hend]
      simp [chanRecv, List.getElem?_set_self hlen]
    refine ⟨by rw [hend], ?_, ?_⟩
    · rw [sendAndWaitResume_reply _ t _ _ _ hrecv]
      exact ⟨_, rfl⟩
    · intro hnd pick s3 err hres
      cases pick with
      | timeoutDone => simp [sendAndWaitResume, hnd] at hres
      | replyReceived =>
        rw [sendAndWaitResume_reply _ t _ _ _ hrecv] at hres
        simp only [if_true, Option.some.injEq, Prod.mk.injEq] at hres
        exact hres.2.symm

/-- Example: ConfirmPasskey as the first call after start-up, alone. -/
theorem alone_reply_yes_returns_nil_example :
    ∃ timeout ch e,
      (AuthCall.run State.init (.ConfirmPasskey ⟨9⟩ ⟨[]⟩ 1234)).2 = .waiting timeout ch ∧
      (AuthCall.run State.init (.ConfirmPasskey ⟨9⟩ ⟨[]⟩ 1234)).1.published =
        State.init.published ++ [(authEvent, e)] ∧
      MapOf.Load (AuthCall.run State.init (.ConfirmPasskey ⟨9⟩ ⟨[]⟩ 1234)).1.requests e.ID =
        some ch ∧
      ∀ reason,
        (authEndpoint (AuthCall.run State.init (.ConfirmPasskey ⟨9⟩ ⟨[]⟩ 1234)).1
          ⟨"yes", reason, e.ID⟩).2 = .returned none ∧
        (∃ s3, sendAndWaitResume
          (authEndpoint (AuthCall.run State.init (.ConfirmPasskey ⟨9⟩ ⟨[]⟩ 1234)).1
            ⟨"yes", reason, e.ID⟩).1 timeout ch .replyReceived = some (s3, none)) ∧
        (timeout ∉ (authEndpoint
            (AuthCall.run State.init (.ConfirmPasskey ⟨9⟩ ⟨[]⟩ 1234)).1
            ⟨"yes", reason, e.ID⟩).1.done →
          ∀ pick s3 err, sendAndWaitResume
            (authEndpoint (AuthCall.run State.init (.ConfirmPasskey ⟨9⟩ ⟨[]⟩ 1234)).1
              ⟨"yes", reason, e.ID⟩).1 timeout ch pick = some (s3, err) → err = none) :=
  alone_reply_yes_returns_nil (.ConfirmPasskey ⟨9⟩ ⟨[]⟩ 1234) rfl State.init
    (by decide) (by decide)

/-- C16: for every publisher, id, name and payload, eventPublisher.Publish
makes exactly one call, on the wrapped sender, with a message whose ID is
int(id) (the id itself when it is below 2^63), whose Data is the payload and
whose Retry is 0; another name gives the same calls. -/
theorem C16_publish_is_one_sender_call {α : Type} (e : eventPublisher) (id : Nat)
    (name name1 : String) (data : α) (calls : SenderCalls α) :
    e.Publish id name data calls =
        calls ++ [(e.sender, { ID := uintToInt id, Data := data, Retry := 0 })] ∧
      (e.Publish id name data calls).length = calls.length + 1 ∧
      (id < 9223372036854775808 → uintToInt id = (id : Int)) ∧
      e.Publish id name data calls = e.Publish id name1 data calls := by
  refine ⟨rfl, by simp [eventPublisher.Publish], ?_, rfl⟩
  intro h
  simp only [uintToInt, wrapInt64]
  omega

/-- Witness of C16: the auth event id 100. -/
theorem C16_publish_is_one_sender_call_witness :
    eventPublisher.Publish ⟨⟨4⟩⟩ (authEventID.Value authEvent)
        (authEventID.String authEvent) "payload" [] =
      [(⟨4⟩, { ID := 100, Data := "payload", Retry := 0 })] := by
  have h := C16_publish_is_one_sender_call ⟨⟨4⟩⟩ (authEventID.Value authEvent)
    (authEventID.String authEvent) "" "payload" []
  rw [h.1, h.2.2.1 (by decide)]
  rfl

/-- C17: what each of the six methods publishes. AuthorizeTransfer: auth_type
"transfer", the given file properties, reply_required true. DisplayPinCode,
DisplayPasskey, ConfirmPasskey, AuthorizePairing, AuthorizeService: auth_type
"pairing", pairing_type "display-pincode", "display-passkey",
"confirm-passkey", "authorize-pairing", "authorize-service", the given
address, and the given pincode / passkey and entered / passkey / nothing
further / service uuid; reply_required is false for the two display methods
and true for the other four. Every other field is its zero value, and the id
is the one send assigns. -/
theorem C17_published_payloads (st : State) (timeout : AuthTimeout)
    (props : FileTransferData) (address : MacAddress) (pincode : String)
    (passkey entered : Nat) (uuid : UUID) :
    (AuthorizeTransfer st timeout props).1.published = st.published ++
        [(authEvent,
          { PairingParams := none,
            TransferParams := some { FileProperties := props },
            AuthType := "transfer", ID := st.a.id.Inc.Value, ReplyRequired := true })] ∧
      (DisplayPinCode st timeout address pincode).1.published = st.published ++
        [(authEvent,
          { PairingParams := some
              { ServiceUUID := none, PairingType := "display-pincode", Pincode := pincode,
                Passkey := 0, Entered := 0, Address := address },
            TransferParams := none,
            AuthType := "pairing", ID := st.a.id.Inc.Value, ReplyRequired := false })] ∧
      (DisplayPasskey st timeout address passkey entered).1.published = st.published ++
        [(authEvent,
          { PairingParams := some
              { ServiceUUID := none, PairingType := "display-passkey", Pincode := "",
                Passkey := passkey, Entered := entered, Address := address },
            TransferParams := none,
            AuthType := "pairing", ID := st.a.id.Inc.Value, ReplyRequired := false })] ∧
      (ConfirmPasskey st timeout address passkey).1.published = st.published ++
        [(authEvent,
          { PairingParams := some
              { ServiceUUID := none, PairingType := "confirm-passkey", Pincode := "",
                Passkey := passkey, Entered := 0, Address := address },
            TransferParams := none,
            AuthType := "pairing", ID := st.a.id.Inc.Value, ReplyRequired := true })] ∧
      (AuthorizePairing st timeout address).1.published = st.published ++
        [(authEvent,
          { PairingParams := some
              { ServiceUUID := none, PairingType := "authorize-pairing", Pincode := "",
                Passkey := 0, Entered := 0, Address := address },
            TransferParams := none,
            AuthType := "pairing", ID := st.a.id.Inc.Value, ReplyRequired := true })] ∧
      (AuthorizeService st timeout address uuid).1.published = st.published ++
        [(authEvent,
          { PairingParams := some
              { ServiceUUID := some uuid, PairingType := "authorize-service", Pincode := "",
                Passkey := 0, Entered := 0, Address := address },
            TransferParams := none,
            AuthType := "pairing", ID := st.a.id.Inc.Value, ReplyRequired := true })] :=
  ⟨rfl, rfl, rfl, rfl, rfl, rfl⟩

/-- C18: in every state reached from start-up by any steps of `Op`
(authorizer calls not overlapping inside send, replies, deadlines passing,
waiting calls resumed through the reply or the timeout case), every channel
held by the registry has capacity 1 and nothing buffered; so for every input
the reply handler returns: its channel send never blocks, also for an entry
whose call has already ended through the timeout case. -/
theorem C18_registry_channels_empty_send_never_blocks (ops : List Op) :
    (∀ k ch, MapOf.Load (runOps State.init ops).requests k = some ch →
        (runOps State.init ops).chans[ch]? = some { cap := 1, buf := [] }) ∧
      ∀ input, ∃ err, (authEndpoint (runOps State.init ops) input).2 = .returned err := by
  have hC := ChanInv_runOps ops State.init ChanInv_init
  refine ⟨hC.fresh, ?_⟩
  intro input
  by_cases h : input.ID ≤ 0
  · exact ⟨_, by rw [authEndpoint_invalid _ input h]⟩
  · have hpos : 0 < input.ID := by omega
    cases hl : MapOf.Load (runOps State.init ops).requests input.ID with
    | none => exact ⟨_, by rw [authEndpoint_missing _ input hpos hl]⟩
    | some ch =>
      exact ⟨_, by rw [authEndpoint_pending _ input ch hpos hl (hC.fresh _ ch hl)]⟩

/-- C19: the handler of `/events` installs its publisher on entry, which
enables events whatever the bus was; when the connection's context is done
the handler returns and its deferred DisableEvents leaves the bus disabled
with no subscriber, whatever the bus was at that moment; so after the handler
of the only client has run from start to end the bus is disabled. -/
theorem C19_stream_handler_enables_then_disables (bus bus1 : EventBus) (send : Sender) :
    (eventsEndpoint bus send).enabled = true ∧
      (eventsEndpoint bus send).publisher = some { sender := send } ∧
      (eventsEndpointDone bus1).enabled = false ∧
      (eventsEndpointDone bus1).publisher = none ∧
      eventsEndpointDone bus1 = DisableEvents bus1 ∧
      (runStream EventBus.init [.connect send]).enabled = true ∧
      (runStream EventBus.init [.connect send, .disconnect send]).enabled = false :=
  ⟨rfl, rfl, rfl, rfl, rfl, rfl, rfl⟩

/-- C20, counterexample: client 1 connects, client 2 connects and replaces
it, then the connection of client 1 closes. Client 2 connected last and its
connection is still open, yet the bus is disabled and has no subscriber, and
an event published now reaches no sender, while before client 1 closed it
reached the sender of client 2. -/
theorem C20_closing_replaced_client_disables_bus :
    lastConnected [.connect ⟨1⟩, .connect ⟨2⟩, .disconnect ⟨1⟩] = some ⟨2⟩ ∧
      isOpen ⟨2⟩ [.connect ⟨1⟩, .connect ⟨2⟩, .disconnect ⟨1⟩] = true ∧
      (runStream EventBus.init
        [.connect ⟨1⟩, .connect ⟨2⟩, .disconnect ⟨1⟩]).enabled = false ∧
      (runStream EventBus.init
        [.connect ⟨1⟩, .connect ⟨2⟩, .disconnect ⟨1⟩]).publisher = none ∧
      EventBus.Publish (runStream EventBus.init [.connect ⟨1⟩, .connect ⟨2⟩])
        authEvent "event" [] = [(⟨2⟩, { ID := 100, Data := "event", Retry := 0 })] ∧
      EventBus.Publish
        (runStream EventBus.init [.connect ⟨1⟩, .connect ⟨2⟩, .disconnect ⟨1⟩])
        authEvent "event" [] = [] := by
  decide

/-- C20, amended: for every bus and every sequence of stream connects and
disconnects, the bus is what the last event made it. After a connect it is
enabled with that client's adapter installed; after a disconnect of any
client, also one whose adapter had been replaced, it is disabled with no
subscriber. So a client's adapter stays installed, with events enabled, from
its connect until the next connect or the next disconnect of any client. -/
theorem C20_bus_follows_last_stream_event (bus : EventBus) (events : List StreamEvent)
    (send : Sender) :
    runStream bus (events ++ [.connect send]) =
        { enabled := true, publisher := some { sender := send },
          handler := some .NilHandler } ∧
      runStream bus (events ++ [.disconnect send]) =
        { enabled := false, publisher := none, handler := none } := by
  simp [runStream, List.foldl_append, streamStep, eventsEndpoint, eventsEndpointDone,
    RegisterEventHandlers, DisableEvents, newPublisher]

/-! ## The `launch` command -/

theorem newSession_AuthTimeout_in_range (bus : EventBus) (cliCmd : Command) (v : Int)
    (hv : cliCmd.authTimeout = some v) (h0 : 0 ≤ v) (h1 : v ≤ 9223372036) :
    (newSession bus cliCmd).2.AuthTimeout = v * 1000000000 := by
  simp only [newSession, Command.Duration, hv, durationMul, timeSecond, wrapInt64,
    if_true, Option.getD_some]
  omega

/-- C21, the code at the failing inputs: with 'using-default-tcp' set (to
either value) and 'tcp-address' set to any address, cmdStart listens with
protocol tcp on that address, not on the default one; with
'using-default-socket' set and 'unix-socket' set to any path, it listens with
protocol unix on that path, not on the default one; with 'using-default-tcp'
set and 'unix-socket' set to "/run/other.sock" it listens with protocol unix.
Only when neither address flag is set do the two flags give the defaults. -/
theorem C21_default_flags_leave_given_addresses (sock a p : String) (b : Bool) :
    cmdStart { sockAddress := sock, usingDefaultTcp := some b, tcpAddress := some a } =
        .listen "tcp" a ∧
      cmdStart { sockAddress := sock, usingDefaultSocket := some b, unixSocket := some p } =
        .listen "unix" p ∧
      cmdStart { sockAddress := sock, usingDefaultTcp := some b,
                 unixSocket := some "/run/other.sock" } = .listen "unix" "/run/other.sock" ∧
      cmdStart { sockAddress := sock, usingDefaultTcp := some b } = .listen "tcp" tcpURI ∧
      cmdStart { sockAddress := sock, usingDefaultSocket := some b } = .listen "unix" sock ∧
      cmdStart { sockAddress := "/tmp/bluerestd.sock", usingDefaultTcp := some true,
                 tcpAddress := some "0.0.0.0:9999" } ≠ .listen "tcp" "127.0.0.1:8888" ∧
      cmdStart { sockAddress := "/tmp/bluerestd.sock", usingDefaultSocket := some true,
                 unixSocket := some "/run/other.sock" } ≠
        .listen "unix" "/tmp/bluerestd.sock" := by
  refine ⟨?_, ?_, ?_, ?_, ?_, by decide, by decide⟩ <;>
    simp [cmdStart, cmdStartListen, Command.IsSet, Command.GetString]

/-- C22, the code at the failing input: with the flag not set the timeout is
10 seconds; with 'auth-timeout' set to 10s, the duration count 10^10, the
product with time.Second wraps around int64 and the configured timeout is
-8446744073709551616 nanoseconds, negative and smaller than the flag value;
9223372037 is the smallest count for which the product wraps. -/
theorem C22_auth_timeout_wraps_around :
    (newSession EventBus.init { sockAddress := "/tmp/bluerestd.sock" }).2.AuthTimeout =
        10 * timeSecond ∧
      (newSession EventBus.init
        { sockAddress := "/tmp/bluerestd.sock",
          authTimeout := some 10000000000 }).2.AuthTimeout = -8446744073709551616 ∧
      (newSession EventBus.init
        { sockAddress := "/tmp/bluerestd.sock",
          authTimeout := some 10000000000 }).2.AuthTimeout < 0 ∧
      (newSession EventBus.init
        { sockAddress := "/tmp/bluerestd.sock",
          authTimeout := some 10000000000 }).2.AuthTimeout ≠ 10000000000 * 1000000000 ∧
      (newSession EventBus.init
        { sockAddress := "/tmp/bluerestd.sock",
          authTimeout := some 9223372036 }).2.AuthTimeout = 9223372036 * 1000000000 ∧
      (newSession EventBus.init
        { sockAddress := "/tmp/bluerestd.sock",
          authTimeout := some 9223372037 }).2.AuthTimeout = -9223372036709551616 := by
  decide

/-- C24: for every call of any of the six methods, from any state, the event
it publishes has pairing_params present if and only if auth_type is
"pairing", transfer_params present if and only if auth_type is "transfer",
and exactly one of the two present. -/
theorem C24_payload_is_tagged_union (c : AuthCall) (st : State) :
    ∃ e, (c.run st).1.published = st.published ++ [(authEvent, e)] ∧
      (e.PairingParams.isSome = true ↔ e.AuthType = "pairing") ∧
      (e.TransferParams.isSome = true ↔ e.AuthType = "transfer") ∧
      (e.PairingParams.isSome = true ∧ e.TransferParams.isSome = false ∨
        e.PairingParams.isSome = false ∧ e.TransferParams.isSome = true) := by
  cases c <;> refine ⟨_, rfl, ?_, ?_, ?_⟩ <;> simp

/-! ## The adapter states -/

theorem statesLoopBody_emptyInputs {σ : Type} (acc : StatesLoop σ) (row : StatesRow σ) :
    (statesLoopBody acc row).emptyInputs =
      acc.emptyInputs + (if row.InputToCheck = "" then 1 else 0) := by
  unfold statesLoopBody
  by_cases h1 : row.InputToCheck = "enable"
  · simp [h1, statesLoopSet]
  · by_cases h2 : row.InputToCheck = "disable"
    · simp [h2, statesLoopSet]
    · by_cases h3 : row.InputToCheck = ""
      · simp [h3]
      · simp [h1, h2, h3, statesLoopSet]

theorem statesLoopBody_states {σ : Type} (acc : StatesLoop σ) (row : StatesRow σ) :
    (statesLoopBody acc row).states =
      if row.InputToCheck = "" then acc.states
      else row.SetStatesProperty (requestedState row.InputToCheck) acc.states := by
  unfold statesLoopBody
  by_cases h1 : row.InputToCheck = "enable"
  · simp [h1, statesLoopSet, requestedState]
  · by_cases h2 : row.InputToCheck = "disable"
    · simp [h2, statesLoopSet, requestedState]
    · by_cases h3 : row.InputToCheck = ""
      · simp [h3]
      · simp [h1, h2, h3, statesLoopSet, requestedState]

theorem statesLoop_emptyInputs {σ : Type} (adapterCall : AdapterCall σ)
    (input : AdapterStatesInput) (acc : StatesLoop σ) :
    ((statesInputs adapterCall input).foldl statesLoopBody acc).emptyInputs =
      acc.emptyInputs + (if input.Discovery = "" then 1 else 0) +
        (if input.Discoverable = "" then 1 else 0) + (if input.Pairable = "" then 1 else 0) +
        (if input.Powered = "" then 1 else 0) := by
  simp only [statesInputs, List.foldl, statesLoopBody_emptyInputs]

theorem statesLoop_states {σ : Type} (adapterCall : AdapterCall σ)
    (input : AdapterStatesInput) (stack : σ) :
    ((statesInputs adapterCall input).foldl statesLoopBody
        { stack := stack, states := {}, errs := none, emptyInputs := 0 }).states =
      { PoweredState := requestedState input.Powered,
        PairableState := requestedState input.Pairable,
        DiscoverableState := requestedState input.Discoverable,
        DiscoveryState := requestedState input.Discovery } := by
  simp only [statesInputs, List.foldl, statesLoopBody_states]
  by_cases h1 : input.Discovery = "" <;> by_cases h2 : input.Discoverable = "" <;>
    by_cases h3 : input.Pairable = "" <;> by_cases h4 : input.Powered = "" <;>
    simp [h1, h2, h3, h4, requestedState]

/-- C23: called with the four parameters empty, when Properties succeeds the
states handler leaves the Bluetooth stack as the one call of Properties left
it (no enable or disable function has run) and returns the four states, each
"enabled" or "disabled" by the property Powered, Pairable, Discoverable,
Discovering. Called with at least one parameter given, its result does not
depend on Properties, and the body it returns when no call fails has, for
each parameter, the state that was asked for ("enabled" for "enable",
"disabled" for "disable") and nothing for a parameter that was not given. -/
theorem C23_states_by_itself_or_by_parameters {σ : Type} (adapterCall : AdapterCall σ)
    (stack stack1 : σ) (properties : AdapterData)
    (hp : adapterCall.Properties stack = (stack1, properties, none))
    (input : AdapterStatesInput)
    (hgiven : input.Powered ≠ "" ∨ input.Pairable ≠ "" ∨ input.Discoverable ≠ "" ∨
      input.Discovery ≠ "") :
    statesEndpoint adapterCall ⟨"", "", "", ""⟩ stack =
        (stack1,
          some { PoweredState := toggleStr properties.Powered,
                 PairableState := toggleStr properties.Pairable,
                 DiscoverableState := toggleStr properties.Discoverable,
                 DiscoveryState := toggleStr properties.Discovering },
          none) ∧
      (∀ other, statesEndpoint { adapterCall with Properties := other } input stack =
        statesEndpoint adapterCall input stack) ∧
      ((statesEndpoint adapterCall input stack).2.2 = none →
        (statesEndpoint adapterCall input stack).2.1 =
          some { PoweredState := requestedState input.Powered,
                 PairableState := requestedState input.Pairable,
                 DiscoverableState := requestedState input.Discoverable,
                 DiscoveryState := requestedState input.Discovery }) ∧
      ((statesEndpoint adapterCall input stack).2.2 ≠ none →
        (statesEndpoint adapterCall input stack).2.1 = none) := by
  have hcount : ∀ a : AdapterCall σ,
      ((statesInputs a input).foldl statesLoopBody
        { stack := stack, states := {}, errs := none, emptyInputs := 0 }).emptyInputs ≠
        (statesInputs a input).length := by
    intro a
    rw [statesLoop_emptyInputs]
    simp only [statesInputs, List.length_cons, List.length_nil]
    rcases hgiven with h | h | h | h <;> simp only [h, if_false] <;> split_ifs <;> omega
  refine ⟨?_, ?_, ?_, ?_⟩
  · simp [statesEndpoint, statesInputs, List.foldl, statesLoopBody, hp]
  · intro other
    have hsame : statesInputs { adapterCall with Properties := other } input =
        statesInputs adapterCall input := rfl
    have h1 := hcount adapterCall
    have h2 := hcount { adapterCall with Properties := other }
    rw [hsame] at h2
    simp only [statesEndpoint, hsame, h1, if_false]
  · intro hnone
    have h1 := hcount adapterCall
    have hst := statesLoop_states adapterCall input stack
    simp only [statesEndpoint, h1, if_false] at hnone ⊢
    cases herr : ((statesInputs adapterCall input).foldl statesLoopBody
        { stack := stack, states := {}, errs := none, emptyInputs := 0 }).errs with
    | some e => simp [herr] at hnone
    | none => simp [hst]
  · intro hsome
    have h1 := hcount adapterCall
    simp only [statesEndpoint, h1, if_false] at hsome ⊢
    cases herr : ((statesInputs adapterCall input).foldl statesLoopBody
        { stack := stack, states := {}, errs := none, emptyInputs := 0 }).errs with
    | some e => simp
    | none => simp [herr] at hsome

/-- Witness of C23: the recording adapter, called by itself and with two
parameters. -/
theorem C23_states_by_itself_or_by_parameters_witness :
    statesEndpoint (recordingAdapter ⟨true, false, true, false⟩) ⟨"", "", "", ""⟩ [] =
        (["Properties"],
          some { PoweredState := "enabled", PairableState := "disabled",
                 DiscoverableState := "enabled", DiscoveryState := "disabled" },
          none) ∧
      (statesEndpoint (recordingAdapter ⟨true, false, true, false⟩)
        ⟨"enable", "", "disable", ""⟩ []).2.1 =
        some { PoweredState := "enabled", PairableState := "",
               DiscoverableState := "disabled", DiscoveryState := "" } :=
  have h := C23_states_by_itself_or_by_parameters
    (recordingAdapter ⟨true, false, true, false⟩) [] ["Properties"]
    ⟨true, false, true, false⟩ rfl ⟨"enable", "", "disable", ""⟩ (Or.inl (by decide))
  ⟨h.1, (h.2.2.1 (by decide)).trans (by decide)⟩

/-! ## Starting a file transfer -/

theorem sendInOrder_length {σ : Type} (ft : FileTransfer σ) (paths : List String)
    (stack : σ) : (sendInOrder ft paths stack).2.length = paths.length := by
  induction paths generalizing stack with
  | nil => rfl
  | cons file rest ih => simp [sendInOrder, ih]

theorem sendInOrder_getElem {σ : Type} (ft : FileTransfer σ) (paths : List String)
    (stack : σ) (i : Nat) (file : String) (h : paths[i]? = some file) :
    (sendInOrder ft paths stack).2[i]? =
      some (ft.SendFile file (sendInOrder ft (paths.take i) stack).1).2.1 := by
  induction paths generalizing stack i with
  | nil => simp at h
  | cons first rest ih =>
    cases i with
    | zero =>
      simp only [List.getElem?_cons_zero, Option.some.injEq] at h
      subst h
      simp [sendInOrder]
    | succ j =>
      simp only [List.getElem?_cons_succ] at h
      simp only [sendInOrder, List.getElem?_cons_succ, List.take_succ_cons]
      exact ih _ j h

theorem startTransferLoop_all_sent {σ : Type} (ft : FileTransfer σ) (paths : List String)
    (queued : List FileTransferData) (stack : σ)
    (hok : ∀ i file, paths[i]? = some file →
      ft.ctxDone (sendInOrder ft (paths.take i) stack).1 = false ∧
        (ft.SendFile file (sendInOrder ft (paths.take i) stack).1).2.2 = none) :
    startTransferLoop ft paths queued stack =
      ((sendInOrder ft paths stack).1, some (queued ++ (sendInOrder ft paths stack).2),
        none) := by
  induction paths generalizing queued stack with
  | nil => simp [startTransferLoop, sendInOrder]
  | cons first rest ih =>
    have h0 := hok 0 first (by simp)
    simp only [List.take_zero, sendInOrder] at h0
    rcases hr : ft.SendFile first stack with ⟨stack1, data, err⟩
    rw [hr] at h0
    obtain ⟨hctx, herr⟩ := h0
    simp only at herr
    subst herr
    have hrest : ∀ i file, rest[i]? = some file →
        ft.ctxDone (sendInOrder ft (rest.take i) stack1).1 = false ∧
          (ft.SendFile file (sendInOrder ft (rest.take i) stack1).1).2.2 = none := by
      intro i file hi
      have := hok (i + 1) file (by simpa using hi)
      simpa only [List.take_succ_cons, sendInOrder, hr] using this
    simp only [startTransferLoop, hctx, hr, sendInOrder]
    rw [ih _ _ hrest]
    simp

theorem startTransferLoop_stops_at_failure {σ : Type} (ft : FileTransfer σ)
    (pre : List String) (file : String) (post : List String)
    (queued : List FileTransferData) (stack stack3 : σ) (data : FileTransferData)
    (err : GoError)
    (hok : ∀ i f, pre[i]? = some f →
      ft.ctxDone (sendInOrder ft (pre.take i) stack).1 = false ∧
        (ft.SendFile f (sendInOrder ft (pre.take i) stack).1).2.2 = none)
    (hctx : ft.ctxDone (sendInOrder ft pre stack).1 = false)
    (hfail : ft.SendFile file (sendInOrder ft pre stack).1 = (stack3, data, some err)) :
    startTransferLoop ft (pre ++ file :: post) queued stack =
      (stack3, none, some (.call err)) := by
  induction pre generalizing queued stack with
  | nil =>
    simp only [sendInOrder] at hfail hctx
    simp [startTransferLoop, hctx, hfail]
  | cons first rest ih =>
    have h0 := hok 0 first (by simp)
    simp only [List.take_zero, sendInOrder] at h0
    rcases hr : ft.SendFile first stack with ⟨stack1, d, e⟩
    rw [hr] at h0
    obtain ⟨hctx0, herr⟩ := h0
    simp only at herr
    subst herr
    have hrest : ∀ i f, rest[i]? = some f →
        ft.ctxDone (sendInOrder ft (rest.take i) stack1).1 = false ∧
          (ft.SendFile f (sendInOrder ft (rest.take i) stack1).1).2.2 = none := by
      intro i f hi
      have := hok (i + 1) f (by simpa using hi)
      simpa only [List.take_succ_cons, sendInOrder, hr] using this
    simp only [sendInOrder, hr] at hfail hctx
    simp only [List.cons_append, startTransferLoop, hctx0, hr]
    exact ih _ _ hrest hctx hfail

/-- C25: when session creation succeeds, the start-file-transfer handler, for
every non-empty list of paths such that at each path the context is not
cancelled and the SendFile call succeeds, returns no error and a queued list
as long as the input whose i-th element is the result of SendFile on the i-th
path, the files having been sent in input order; and when, after such
successful sends, SendFile fails on a path, the handler returns that error
with no body and leaves the Bluetooth stack as that failing SendFile left it,
so no later path is sent. -/
theorem C25_transfer_queues_in_order_or_stops {σ : Type} (ft : FileTransfer σ)
    (stack stack1 : σ) (hcreate : ft.CreateSession stack = (stack1, none)) :
    (∀ paths : List String, paths ≠ [] →
      (∀ i file, paths[i]? = some file →
        ft.ctxDone (sendInOrder ft (paths.take i) stack1).1 = false ∧
          (ft.SendFile file (sendInOrder ft (paths.take i) stack1).1).2.2 = none) →
      startTransferEndpoint ft paths stack =
          ((sendInOrder ft paths stack1).1, some (sendInOrder ft paths stack1).2, none) ∧
        (sendInOrder ft paths stack1).2.length = paths.length ∧
        ∀ i file, paths[i]? = some file →
          (sendInOrder ft paths stack1).2[i]? =
            some (ft.SendFile file (sendInOrder ft (paths.take i) stack1).1).2.1) ∧
    (∀ (pre : List String) (file : String) (post : List String) (stack3 : σ)
        (data : FileTransferData) (err : GoError),
      (∀ i f, pre[i]? = some f →
        ft.ctxDone (sendInOrder ft (pre.take i) stack1).1 = false ∧
          (ft.SendFile f (sendInOrder ft (pre.take i) stack1).1).2.2 = none) →
      ft.ctxDone (sendInOrder ft pre stack1).1 = false →
      ft.SendFile file (sendInOrder ft pre stack1).1 = (stack3, data, some err) →
      startTransferEndpoint ft (pre ++ file :: post) stack =
        (stack3, none, some (.call err))) := by
  constructor
  · intro paths hne hok
    have hlen : ¬ paths.length = 0 := by
      intro h
      exact hne (List.length_eq_zero.mp h)
    refine ⟨?_, sendInOrder_length ft paths stack1, sendInOrder_getElem ft paths stack1⟩
    simp only [startTransferEndpoint, hlen, if_false, hcreate]
    rw [startTransferLoop_all_sent ft paths [] stack1 hok]
    simp
  · intro pre file post stack3 data err hok hctx hfail
    have hlen : ¬ (pre ++ file :: post).length = 0 := by simp
    simp only [startTransferEndpoint, hlen, if_false, hcreate]
    exact startTransferLoop_stops_at_failure ft pre file post [] stack1 stack3 data err
      hok hctx hfail

/-- Witness of C25: the recording transfer, with three paths sent and with
the second of three paths failing. -/
theorem C25_transfer_queues_in_order_or_stops_witness :
    startTransferEndpoint (recordingTransfer "") ["/music/a.mp3", "/doc/b.pdf", "/c"] [] =
        (["CreateSession", "SendFile /music/a.mp3", "SendFile /doc/b.pdf", "SendFile /c"],
          some [{ fields := [("name", "/music/a.mp3")] }, { fields := [("name", "/doc/b.pdf")] },
            { fields := [("name", "/c")] }],
          none) ∧
      startTransferEndpoint (recordingTransfer "/doc/b.pdf")
          (["/music/a.mp3"] ++ "/doc/b.pdf" :: ["/c"]) [] =
        (["CreateSession", "SendFile /music/a.mp3", "SendFile /doc/b.pdf"], none,
          some (.call (.errorString "send failed"))) :=
  ⟨((C25_transfer_queues_in_order_or_stops (recordingTransfer "") [] ["CreateSession"]
      rfl).1 ["/music/a.mp3", "/doc/b.pdf", "/c"] (by decide)
      (by
        intro i file hi
        refine ⟨rfl, ?_⟩
        have hmem := List.getElem?_mem hi
        simp only [List.mem_cons, List.mem_singleton, List.not_mem_nil, or_false] at hmem
        rcases hmem with rfl | rfl | rfl <;> simp [recordingTransfer])).1.trans (by decide),
    (C25_transfer_queues_in_order_or_stops (recordingTransfer "/doc/b.pdf") []
      ["CreateSession"] rfl).2 ["/music/a.mp3"] "/doc/b.pdf" ["/c"]
      ["CreateSession", "SendFile /music/a.mp3", "SendFile /doc/b.pdf"]
      { fields := [("name", "/doc/b.pdf")] } (.errorString "send failed")
      (by
        intro i f hi
        refine ⟨rfl, ?_⟩
        have hmem := List.getElem?_mem hi
        simp only [List.mem_singleton] at hmem
        subst hmem
        simp [recordingTransfer])
      rfl (by decide)⟩

/-! ## `sendAndWait` under a schedule -/

theorem runWaitSchedule_alone (st : State) (timeout : AuthTimeout)
    (data : authRequestEvent) :
    runWaitSchedule st [WaitCall.start timeout data] [0, 0, 0, 0, 0] =
      ((sendAndWait st timeout data).1,
        [{ timeout := timeout, ch := st.chans.length,
           inner := { data := { data with ID := (send st data).2 }, pc := .returned },
           pc := .parked }]) := rfl

theorem chanSend_some (chans : Chans) (ch : Nat) (v : authEventReply) (chans1 : Chans)
    (h : chanSend chans ch v = some chans1) : ∃ c, chans1 = chans.set ch c := by
  unfold chanSend at h
  cases hc : chans[ch]? with
  | none => simp [hc] at h
  | some c =>
    rw [hc] at h
    simp only at h
    split at h
    · simp only [Option.some.injEq] at h
      exact ⟨_, h.symm⟩
    · simp at h

theorem Orphan_authEndpoint (st : State) (input : AuthInput) (ch : Nat)
    (h : Orphan st ch) : Orphan (authEndpoint st input).1 ch := by
  obtain ⟨⟨c, hc, hb⟩, hreg⟩ := h
  have hframe := (authEndpoint_frame st input).2.2.2
  refine ⟨?_, fun k hk => hreg k (hframe k ch hk)⟩
  unfold authEndpoint
  split
  · exact ⟨c, hc, hb⟩
  · simp only [MapOf.LoadAndDelete]
    cases hl : MapOf.Load st.requests input.ID with
    | none => exact ⟨c, hc, hb⟩
    | some c1 =>
      have hne : c1 ≠ ch := fun he => hreg input.ID (he ▸ hl)
      simp only
      cases hs : chanSend st.chans c1 ⟨input.Reason, decide (input.Reply = "yes")⟩ with
      | none => exact ⟨c, hc, hb⟩
      | some chans1 =>
        obtain ⟨x, hx⟩ := chanSend_some _ _ _ _ hs
        refine ⟨c, ?_, hb⟩
        simp only
        rw [hx, List.getElem?_set_ne hne]
        exact hc

theorem Orphan_step (st : State) (op : Op) (ch : Nat) (h : Orphan st ch) :
    Orphan (step st op) ch := by
  obtain ⟨⟨c, hc, hb⟩, hreg⟩ := h
  have hlt : ch < st.chans.length := (List.getElem?_eq_some.mp hc).1
  cases op with
  | call call =>
    simp only [step]
    rcases AuthCall.run_cases st call with ⟨_, t, data, hr⟩ | ⟨_, data, hr⟩
    · rw [hr, sendAndWait_fst]
      refine ⟨⟨c, ?_, hb⟩, ?_⟩
      · simp only
        rw [List.getElem?_append_left hlt]
        exact hc
      · intro k hk
        simp only [MapOf.Load_Store] at hk
        split at hk
        · simp only [Option.some.injEq] at hk
          omega
        · exact hreg k hk
    · rw [hr, send_fst]
      exact ⟨⟨c, hc, hb⟩, hreg⟩
  | resume timeout ch1 pick =>
    simp only [step]
    cases hres : sendAndWaitResume st timeout ch1 pick with
    | none => exact ⟨⟨c, hc, hb⟩, hreg⟩
    | some p =>
      obtain ⟨st1, err⟩ := p
      have hframe := sendAndWaitResume_frame st st1 timeout ch1 pick err hres
      refine ⟨?_, fun k hk => hreg k (by rw [← hframe.2.1]; exact hk)⟩
      cases pick with
      | timeoutDone =>
        simp only [sendAndWaitResume] at hres
        split at hres
        · simp only [Option.some.injEq, Prod.mk.injEq] at hres
          rw [← hres.1]
          exact ⟨c, hc, hb⟩
        · simp at hres
      | replyReceived =>
        simp only [sendAndWaitResume] at hres
        cases hr : chanRecv st.chans ch1 with
        | none => simp [hr] at hres
        | some q =>
          obtain ⟨r, chans1⟩ := q
          rw [hr] at hres
          simp only [Option.some.injEq, Prod.mk.injEq] at hres
          obtain ⟨c1, rest, hc1, hb1, hset⟩ := chanRecv_some _ _ _ _ hr
          have hne : ch1 ≠ ch := by
            intro he
            subst he
            rw [hc] at hc1
            simp only [Option.some.injEq] at hc1
            rw [← hc1, hb] at hb1
            simp at hb1
          rw [← hres.1]
          refine ⟨c, ?_, hb⟩
          simp only
          rw [hset, List.getElem?_set_ne hne]
          exact hc
  | reply input => exact Orphan_authEndpoint st input ch ⟨⟨c, hc, hb⟩, hreg⟩
  | deadline timeout => exact ⟨⟨c, hc, hb⟩, hreg⟩

theorem Orphan_runOps (ops : List Op) (st : State) (ch : Nat) (h : Orphan st ch) :
    Orphan (runOps st ops) ch := by
  induction ops generalizing st with
  | nil => exact h
  | cons op rest ih => exact ih (step st op) (Orphan_step st op ch h)

theorem Orphan_resume_is_error (st s3 : State) (timeout : AuthTimeout) (ch : Nat)
    (pick : SelectCase) (err : error) (h : Orphan st ch)
    (hres : sendAndWaitResume st timeout ch pick = some (s3, err)) : err ≠ none := by
  intro hnil
  obtain ⟨_, r, chans1, hr, _⟩ :=
    (sendAndWaitResume_nil_iff st s3 timeout ch pick err hres).mp hnil
  obtain ⟨c1, rest, hc1, hb1, _⟩ := chanRecv_some _ _ _ _ hr
  obtain ⟨⟨c, hc, hb⟩, _⟩ := h
  rw [hc] at hc1
  simp only [Option.some.injEq] at hc1
  rw [← hc1, hb] at hb1
  simp at hb1

/-- C15, the code at the failing input: two calls of sendAndWait on a new
authorizer, with any deadlines and payloads, whose statements alternate
(make, make, Inc, Inc, Value, Value, Publish, Publish, Store, Store). Both
calls are parked, the first on channel 0 and the second on channel 1, and
both have published auth_id 2; the registry holds the one entry 2 -> channel
1, the second Store having replaced the first call's channel. A reply "yes"
for auth_id 2 returns no error and lets the second call return nil; but
whatever steps follow, whenever the select of the first call returns, the
call returns a non-nil error: the reply to the auth_id it published never
makes it return success. -/
theorem C15_overlapping_calls_share_a_key (t1 t2 : AuthTimeout) (d1 d2 : authRequestEvent)
    (reason : String) (ops : List Op) (pick : SelectCase) :
    (overlappingCalls t1 t2 d1 d2).2.map (fun c => (c.pc, c.timeout, c.ch, c.inner.data.ID)) =
        [(.parked, t1, 0, 2), (.parked, t2, 1, 2)] ∧
      publishedIds (overlappingCalls t1 t2 d1 d2).1 = [2, 2] ∧
      (overlappingCalls t1 t2 d1 d2).1.requests = [(2, 1)] ∧
      (authEndpoint (overlappingCalls t1 t2 d1 d2).1 ⟨"yes", reason, 2⟩).2 =
        .returned none ∧
      (∃ s3, sendAndWaitResume
        (authEndpoint (overlappingCalls t1 t2 d1 d2).1 ⟨"yes", reason, 2⟩).1
        t2 1 .replyReceived = some (s3, none)) ∧
      sendAndWaitResume
        (authEndpoint (overlappingCalls t1 t2 d1 d2).1 ⟨"yes", reason, 2⟩).1
        t1 0 .replyReceived = none ∧
      (∀ s3 err, sendAndWaitResume
        (runOps (authEndpoint (overlappingCalls t1 t2 d1 d2).1 ⟨"yes", reason, 2⟩).1 ops)
        t1 0 pick = some (s3, err) → err ≠ none) := by
  have hchans : (overlappingCalls t1 t2 d1 d2).1.chans =
      [{ cap := 1, buf := [] }, { cap := 1, buf := [] }] := rfl
  have hreqs : (overlappingCalls t1 t2 d1 d2).1.requests = [(2, 1)] := rfl
  have hend := authEndpoint_pending (overlappingCalls t1 t2 d1 d2).1 ⟨"yes", reason, 2⟩ 1
    (by show (0 : Int) < 2; decide) (by rw [hreqs]; rfl) (by rw [hchans]; rfl)
  have hafter : (authEndpoint (overlappingCalls t1 t2 d1 d2).1 ⟨"yes", reason, 2⟩).1.chans =
      [{ cap := 1, buf := [] }, { cap := 1, buf := [⟨reason, true⟩] }] := by
    rw [hend]
    simp [hchans]
  have hgone : (authEndpoint (overlappingCalls t1 t2 d1 d2).1
      ⟨"yes", reason, 2⟩).1.requests = [] := by
    rw [hend]
    simp [hreqs, MapOf.Delete]
  have hrecv : chanRecv
      (authEndpoint (overlappingCalls t1 t2 d1 d2).1 ⟨"yes", reason, 2⟩).1.chans 1 =
        some (⟨reason, true⟩, [{ cap := 1, buf := [] }, { cap := 1, buf := [] }]) := by
    rw [hafter]
    rfl
  have horphan : Orphan
      (authEndpoint (overlappingCalls t1 t2 d1 d2).1 ⟨"yes", reason, 2⟩).1 0 := by
    refine ⟨⟨{ cap := 1, buf := [] }, by rw [hafter]; rfl, rfl⟩, fun k hk => ?_⟩
    rw [hgone] at hk
    simp [MapOf.Load] at hk
  refine ⟨rfl, rfl, rfl, by rw [hend], ?_, ?_, ?_⟩
  · rw [sendAndWaitResume_reply _ t2 1 _ _ hrecv]
    exact ⟨_, rfl⟩
  · simp [sendAndWaitResume, chanRecv, hafter]
  · intro s3 err hres
    exact Orphan_resume_is_error _ s3 t1 0 pick err (Orphan_runOps ops _ 0 horphan) hres

end Bluerestd
